import Mathlib

/-!
Shallow embedding of the VROOM input layer: `src/structures/typedefs.h`
(scaling helpers and numeric constants) and `src/utils/input_parser.cpp`
(JSON ingestion into the `Input` object).

Modelling conventions:
* rapidjson documents are modelled by the inductive `Json`; objects are
  association lists and member lookup (`HasMember` / `operator[]`) returns the
  first member with the requested key, as rapidjson `FindMember` does.
* JSON numbers are modelled as integers (`Int`).  The only double-valued
  fields of the parser (coordinates, `speed_factor`) are passed through
  verbatim, so no claim depends on floating-point arithmetic.
* C++ exceptions become the `Except Err` monad: `Err.input` stands for
  `vroom::InputException`, `Err.runtime` for `std::runtime_error` (used by
  `get_duration_map` in the source).  Statement evaluation order follows the
  source; constructor-argument lists are evaluated left to right.
* `std::unordered_set<Skill>` is modelled as the list of inserted values and
  `std::map` as an association list; no claim depends on set or map order.
-/

/-- rapidjson value, shallowly embedded.  Numbers are integers (see header). -/
inductive Json where
  | null : Json
  | boolean : Bool → Json
  | num : Int → Json
  | str : String → Json
  | arr : List Json → Json
  | obj : List (String × Json) → Json

/-- rapidjson FindMember: first member with the given key, if any. -/
def Json.find : Json → String → Option Json
  | .obj members, key => members.lookup key
  | _, _ => none

/-- rapidjson HasMember. -/
def Json.hasMember (j : Json) (key : String) : Bool :=
  (j.find key).isSome

/-- rapidjson IsArray. -/
def Json.isArray : Json → Bool
  | .arr _ => true
  | _ => false

/-- rapidjson IsObject. -/
def Json.isObject : Json → Bool
  | .obj _ => true
  | _ => false

/-- rapidjson IsString. -/
def Json.isString : Json → Bool
  | .str _ => true
  | _ => false

/-- rapidjson IsNumber (doubles are modelled as integers, see header). -/
def Json.isNumber : Json → Bool
  | .num _ => true
  | _ => false

/-- rapidjson IsUint: an integer value representable as uint32. -/
def Json.isUint : Json → Bool
  | .num n => decide (0 ≤ n ∧ n < 2 ^ 32)
  | _ => false

/-- rapidjson IsUint64: an integer value representable as uint64. -/
def Json.isUint64 : Json → Bool
  | .num n => decide (0 ≤ n ∧ n < 2 ^ 64)
  | _ => false

/-- rapidjson GetUint (callers establish IsUint first). -/
def Json.getUint : Json → Nat
  | .num n => n.toNat
  | _ => 0

/-- rapidjson GetUint64 (callers establish IsUint64 first). -/
def Json.getUint64 : Json → Nat
  | .num n => n.toNat
  | _ => 0

/-- rapidjson GetString (callers establish IsString first). -/
def Json.getString : Json → String
  | .str s => s
  | _ => ""

/-- rapidjson GetDouble, with doubles modelled as integers. -/
def Json.getNumber : Json → Int
  | .num n => n
  | _ => 0

/-- Elements of an array value ([] for non-arrays). -/
def Json.elems : Json → List Json
  | .arr xs => xs
  | _ => []

/-- Member list of an object value ([] for non-objects). -/
def Json.members : Json → List (String × Json)
  | .obj ms => ms
  | _ => []

/-- `object[key]` after a successful HasMember check. -/
def Json.get (j : Json) (key : String) : Json :=
  (j.find key).getD .null

/-- Remove every member with the given key from an object. -/
def Json.erase : Json → String → Json
  | .obj ms, key => .obj (ms.filter (fun kv => kv.1 ≠ key))
  | j, _ => j

/-- C++ exception kinds thrown by the parser: `vroom::InputException`
and `std::runtime_error` (the latter only in `get_duration_map`). -/
inductive Err where
  | input : String → Err
  | runtime : String → Err
deriving DecidableEq

/-- Computation that may throw (C++ exception propagation). -/
abbrev Exc (α : Type) := Except Err α

/-- Successful bind splits into a successful step and a successful rest. -/
theorem bind_ok {α β : Type} {e : Exc α} {f : α → Exc β} {b : β}
    (h : e >>= f = .ok b) : ∃ a, e = .ok a ∧ f a = .ok b := by
  cases e with
  | error err => exact absurd h (by simp [Bind.bind, Except.bind])
  | ok a => exact ⟨a, rfl, by simpa [Bind.bind, Except.bind] using h⟩

/-- An error propagates through bind. -/
theorem bind_error {α β : Type} {f : α → Exc β} (e : Err) :
    ((.error e : Exc α) >>= f) = .error e := rfl

/-- Sequential map over a list, stopping at the first thrown exception
(the shape of the parsing loops and `std::transform` calls in the source). -/
def mapExc {α β : Type} (f : α → Exc β) : List α → Exc (List β)
  | [] => .ok []
  | x :: xs => do
    let y ← f x
    let ys ← mapExc f xs
    .ok (y :: ys)

theorem mapExc_ok_forall {α β : Type} {f : α → Exc β} {l : List α} {r : List β}
    (h : mapExc f l = .ok r) : ∀ x ∈ l, ∃ y, f x = .ok y := by
  induction l generalizing r with
  | nil => intro x hx; cases hx
  | cons a as ih =>
    intro x hx
    obtain ⟨y, hy, hrest⟩ := bind_ok h
    obtain ⟨ys, hys, _⟩ := bind_ok hrest
    rcases List.mem_cons.mp hx with hx | hx
    · exact ⟨y, hx ▸ hy⟩
    · exact ih hys x hx

theorem mapExc_forall2 {α β : Type} {f : α → Exc β} {l : List α} {r : List β}
    (h : mapExc f l = .ok r) : List.Forall₂ (fun a b => f a = .ok b) l r := by
  induction l generalizing r with
  | nil =>
    simp only [mapExc] at h
    cases h
    exact .nil
  | cons a as ih =>
    obtain ⟨y, hy, hrest⟩ := bind_ok h
    obtain ⟨ys, hys, hcons⟩ := bind_ok hrest
    simp only [pure, Except.pure, Except.ok.injEq] at hcons
    cases hcons
    exact .cons hy (ih hys)

theorem mapExc_length {α β : Type} {f : α → Exc β} {l : List α} {r : List β}
    (h : mapExc f l = .ok r) : r.length = l.length :=
  (mapExc_forall2 h).length_eq.symm

/- ===================== typedefs.h ===================== -/

/-- `DURATION_FACTOR` (typedefs.h line 72): internal time unit is the
hundredth of a second. -/
def DURATION_FACTOR : Int := 100

/-- `DISTANCE_FACTOR` (typedefs.h line 76). -/
def DISTANCE_FACTOR : Int := 360

/-- `COST_FACTOR` (typedefs.h line 81). -/
def COST_FACTOR : Int := 3600

/-- `DEFAULT_COST_PER_HOUR` (typedefs.h line 85). -/
def DEFAULT_COST_PER_HOUR : Nat := 3600

/-- `DEFAULT_COST_PER_KM` (typedefs.h line 86). -/
def DEFAULT_COST_PER_KM : Nat := 0

/-- `DEFAULT_PROFILE` (typedefs.h line 67). -/
def DEFAULT_PROFILE : String := "car"

/-- Largest value of the C++ type `UserCost = uint32_t`. -/
def USER_COST_MAX : Nat := 2 ^ 32 - 1

/-- Largest value of the C++ type `Cost = int64_t`. -/
def COST_MAX : Int := 2 ^ 63 - 1

/-- `INFINITE_USER_COST` (typedefs.h lines 64-65):
`3 * (std::numeric_limits<UserCost>::max() / 4)` in uint32 arithmetic. -/
def INFINITE_USER_COST : Nat := (3 * (USER_COST_MAX / 4)) % 2 ^ 32

/-- `scale_from_user_duration` (typedefs.h lines 200-202):
`DURATION_FACTOR * static_cast<Duration>(d)` on int64. -/
def scale_from_user_duration (d : Nat) : Int := DURATION_FACTOR * (d : Int)

/-- `scale_to_user_duration` (typedefs.h lines 214-218):
`static_cast<UserDuration>(d / DURATION_FACTOR)`; the argument is
nonnegative (asserted in the source), and the uint32 cast reduces mod 2^32. -/
def scale_to_user_duration (d : Int) : Nat := (d / DURATION_FACTOR).toNat % 2 ^ 32

/-- `scale_from_user_cost` (typedefs.h lines 220-222):
`DURATION_FACTOR * COST_FACTOR * static_cast<Cost>(c)` on int64. -/
def scale_from_user_cost (c : Nat) : Int := DURATION_FACTOR * COST_FACTOR * (c : Int)

/-- `scale_to_user_cost` (typedefs.h lines 224-227):
`static_cast<UserCost>(c / (DURATION_FACTOR * COST_FACTOR))`. -/
def scale_to_user_cost (c : Int) : Nat :=
  (c / (DURATION_FACTOR * COST_FACTOR)).toNat % 2 ^ 32

/- ===================== data model ===================== -/

/-- Amounts (`vroom::Amount`): vectors of uint values indexed 0..size-1. -/
abbrev Amount := List Nat

/-- A time window with user-level (unscaled) bounds.  The field `stop` is
the member named `end` in the source (a Lean keyword). -/
structure TimeWindow where
  start : Nat
  stop : Nat
deriving DecidableEq

/-- Modelled from the spec: the default `TimeWindow()` constructor (class
TimeWindow is not under src/) covers the whole horizon, from 0 to the
largest `UserDuration` value. -/
def TimeWindow.default : TimeWindow := ⟨0, 2 ^ 32 - 1⟩

/-- Modelled from the spec: the checked `TimeWindow(start, end)` constructor
(class TimeWindow is not under src/) rejects a malformed time window, i.e.
one with start > end, with an InputError; this is the spec sentence
"malformed time window (start > end). Raised during ingestion". -/
def TimeWindow.make (s e : Nat) : Exc TimeWindow :=
  if e < s then
    .error (.input ("Invalid time window: start " ++ toString s ++
      " is after end " ++ toString e ++ "."))
  else
    .ok ⟨s, e⟩

/-- Modelled from the spec: `operator<` on time windows (not under src/),
ordering by start and then by end, as used to keep window lists sorted. -/
def twLt (a b : TimeWindow) : Bool :=
  a.start < b.start || (a.start == b.start && a.stop < b.stop)

/-- Ordered insertion used to model `std::sort` on time windows. -/
def insertTW (t : TimeWindow) : List TimeWindow → List TimeWindow
  | [] => [t]
  | u :: us => if twLt t u then t :: u :: us else u :: insertTW t us

/-- Insertion sort modelling `std::sort(tws.begin(), tws.end())`. -/
def sortTWs : List TimeWindow → List TimeWindow
  | [] => []
  | t :: ts => insertTW t (sortTWs ts)

theorem insertTW_length (t : TimeWindow) (l : List TimeWindow) :
    (insertTW t l).length = l.length + 1 := by
  induction l with
  | nil => rfl
  | cons u us ih =>
    by_cases h : twLt t u = true
    · simp [insertTW, h]
    · simp [insertTW, h, ih]

theorem sortTWs_length (l : List TimeWindow) :
    (sortTWs l).length = l.length := by
  induction l with
  | nil => rfl
  | cons t ts ih => simp [sortTWs, insertTW_length, ih]

/-- `vroom::Break` as built by `get_break`. -/
structure Break where
  id : Nat
  tws : List TimeWindow
  service : Nat
  description : String
  max_load : Option Amount
deriving DecidableEq

/-- `vroom::VehicleCosts`. -/
structure VehicleCosts where
  fixed : Nat
  per_hour : Nat
  per_km : Nat
deriving DecidableEq

/-- `STEP_TYPE` (typedefs.h line 121). -/
inductive StepType where
  | start | job | brk | stop
deriving DecidableEq

/-- `JOB_TYPE` (typedefs.h line 118). -/
inductive JobType where
  | single | pickup | delivery
deriving DecidableEq

/-- `vroom::ForcedService` built from service_at / service_after /
service_before. -/
structure ForcedService where
  service_at : Option Nat
  service_after : Option Nat
  service_before : Option Nat
deriving DecidableEq

/-- `vroom::VehicleStep` as built by `get_vehicle_steps`: a step type, an
optional job type (for job/pickup/delivery steps), an optional id (absent for
start and end steps) and the forced service bounds. -/
structure VehicleStep where
  step_type : StepType
  job_type : Option JobType
  id : Option Nat
  forced_service : ForcedService
deriving DecidableEq

/-- Coordinates, with doubles modelled as integers (see header). -/
structure Coordinates where
  lon : Int
  lat : Int
deriving DecidableEq

/-- `vroom::Location`: a matrix index, coordinates, or both. -/
structure Location where
  index : Option Nat
  coords : Option Coordinates
deriving DecidableEq

/-- `Location(index)` constructor. -/
def Location.ofIndex (i : Nat) : Location := ⟨some i, none⟩

/-- `Location({index, coordinates})` constructor. -/
def Location.ofIndexCoords (i : Nat) (c : Coordinates) : Location := ⟨some i, some c⟩

/-- `Location(coordinates)` constructor. -/
def Location.ofCoords (c : Coordinates) : Location := ⟨none, some c⟩

/-- `vroom::Vehicle` with exactly the fields passed by `get_vehicle`
(input_parser.cpp lines 458-473); `speed_factor` is the double argument
modelled as an integer.  Field `stop` is the ctor argument named `end`. -/
structure Vehicle where
  id : Nat
  start : Option Location
  stop : Option Location
  profile : String
  capacity : Amount
  skills : List Nat
  tw : TimeWindow
  breaks : List Break
  description : String
  costs : VehicleCosts
  speed_factor : Int
  service_type : Option String
  max_tasks : Option Nat
  max_travel_time : Option Nat
  max_distance : Option Nat
  steps : List VehicleStep
deriving DecidableEq

/-- `vroom::Job` built through the single-job constructor used by `get_job`
(input_parser.cpp lines 508-519): fields are exactly the ctor arguments. -/
structure Job where
  id : Nat
  location : Location
  setup : Nat
  service : Nat
  service_per_vehicle_type : List (String × Nat)
  delivery : Amount
  pickup : Amount
  skills : List Nat
  priority : Nat
  tws : List TimeWindow
  description : String
deriving DecidableEq

/-- `vroom::Job` built through the pickup/delivery constructor used for
shipments (input_parser.cpp lines 629-655): fields are exactly the ctor
arguments, including the single shipment-level `amount`. -/
structure SJob where
  id : Nat
  job_type : JobType
  location : Location
  setup : Nat
  service : Nat
  service_per_vehicle_type : List (String × Nat)
  amount : Amount
  skills : List Nat
  priority : Nat
  tws : List TimeWindow
  description : String
deriving DecidableEq

/-- A custom square matrix of uint values (`vroom::Matrix<T>`). -/
structure VMatrix where
  size : Nat
  rows : List (List Nat)
deriving DecidableEq

/-- Replace-or-append update of an association list (`std::map` insertion,
used for matrices keyed by profile). -/
def setAssoc {α : Type} (m : List (String × α)) (k : String) (v : α) :
    List (String × α) :=
  match m with
  | [] => [(k, v)]
  | (k0, v0) :: rest =>
    if k0 = k then (k, v) :: rest else (k0, v0) :: setAssoc rest k v

/-- The `vroom::Input` state as far as `parse` mutates it: the amount size
and geometry flag, the added vehicles, jobs and shipments (in call order),
and the per-profile matrices registered through `set_durations_matrix`,
`set_distances_matrix` and `set_costs_matrix`. -/
structure Input where
  amount_size : Nat
  geometry : Bool
  vehicles : List Vehicle
  jobs : List Job
  shipments : List (SJob × SJob)
  durations_matrices : List (String × VMatrix)
  distances_matrices : List (String × VMatrix)
  costs_matrices : List (String × VMatrix)
deriving DecidableEq

/- ===================== input_parser.cpp: helpers ===================== -/

/-- `parse_coordinates` (input_parser.cpp lines 21-28). -/
def parse_coordinates (object : Json) (key : String) : Exc Coordinates :=
  let v := object.get key
  if !v.isArray || v.elems.length < 2 ||
      !(v.elems.getD 0 .null).isNumber || !(v.elems.getD 1 .null).isNumber then
    .error (.input ("Invalid " ++ key ++ " array."))
  else
    .ok ⟨(v.elems.getD 0 .null).getNumber, (v.elems.getD 1 .null).getNumber⟩

/-- `get_string` (input_parser.cpp lines 30-39). -/
def get_string (object : Json) (key : String) : Exc String :=
  match object.find key with
  | none => .ok ""
  | some v =>
    if v.isString then .ok v.getString
    else .error (.input ("Invalid " ++ key ++ " value."))

/-- `get_optional_string` (input_parser.cpp lines 41-51). -/
def get_optional_string (object : Json) (key : String) : Exc (Option String) :=
  match object.find key with
  | none => .ok none
  | some v =>
    if v.isString then .ok (some v.getString)
    else .error (.input ("Invalid " ++ key ++ " value."))

/-- `get_double` (input_parser.cpp lines 53-62), doubles modelled as
integers; the default value is 1. -/
def get_double (object : Json) (key : String) : Exc Int :=
  match object.find key with
  | none => .ok 1
  | some v =>
    if v.isNumber then .ok v.getNumber
    else .error (.input ("Invalid " ++ key ++ " value."))

/-- The element loop of `get_amount` (input_parser.cpp lines 81-86):
each entry must be a uint. -/
def getAmountValues (key : String) : List Json → Exc (List Nat)
  | [] => .ok []
  | x :: xs =>
    if x.isUint then do
      let rest ← getAmountValues key xs
      .ok (x.getUint :: rest)
    else .error (.input ("Invalid " ++ key ++ " value."))

/-- `get_amount` (input_parser.cpp lines 64-90). -/
def get_amount (object : Json) (key : String) (amount_size : Nat) : Exc Amount :=
  match object.find key with
  | none => .ok (List.replicate amount_size 0)
  | some v =>
    if !v.isArray then
      .error (.input ("Invalid " ++ key ++ " array."))
    else if v.elems.length ≠ amount_size then
      .error (.input ("Inconsistent " ++ key ++ " length: " ++
        toString v.elems.length ++ " and " ++ toString amount_size ++ "."))
    else
      getAmountValues key v.elems

/-- The element loop of `get_skills` (input_parser.cpp lines 98-103). -/
def getSkillValues : List Json → Exc (List Nat)
  | [] => .ok []
  | x :: xs =>
    if x.isUint then do
      let rest ← getSkillValues xs
      .ok (x.getUint :: rest)
    else .error (.input "Invalid skill value.")

/-- `get_skills` (input_parser.cpp lines 92-107); the unordered set is
modelled as the list of inserted values. -/
def get_skills (object : Json) : Exc (List Nat) :=
  match object.find "skills" with
  | none => .ok []
  | some v =>
    if !v.isArray then .error (.input "Invalid skills object.")
    else getSkillValues v.elems

/-- `get_duration` (input_parser.cpp lines 109-119). -/
def get_duration (object : Json) (key : String) : Exc Nat :=
  match object.find key with
  | none => .ok 0
  | some v =>
    if v.isUint then .ok v.getUint
    else .error (.input ("Invalid " ++ key ++ " duration."))

/-- The member loop of `get_duration_map` (input_parser.cpp lines 135-145);
member names are strings by construction of the Json model, so only the
value check can fail.  Throws `std::runtime_error`, not InputException. -/
def getDurationMapMembers (key : String) :
    List (String × Json) → Exc (List (String × Nat))
  | [] => .ok []
  | (name, v) :: rest =>
    if v.isUint then do
      let tail ← getDurationMapMembers key rest
      .ok (setAssoc tail name v.getUint)
    else .error (.runtime ("Invalid " ++ key ++ " duration."))

/-- `get_duration_map` (input_parser.cpp lines 121-148). -/
def get_duration_map (object : Json) (key : String) :
    Exc (List (String × Nat)) :=
  match object.find key with
  | none => .ok []
  | some v =>
    if !v.isObject then .error (.runtime ("Invalid " ++ key ++ " duration."))
    else getDurationMapMembers key v.members

/-- `get_priority` (input_parser.cpp lines 150-159). -/
def get_priority (object : Json) : Exc Nat :=
  match object.find "priority" with
  | none => .ok 0
  | some v =>
    if v.isUint then .ok v.getUint
    else .error (.input "Invalid priority value.")

/-- `get_value_for<T>` (input_parser.cpp lines 161-172). -/
def get_value_for (object : Json) (key : String) : Exc (Option Nat) :=
  match object.find key with
  | none => .ok none
  | some v =>
    if v.isUint then .ok (some v.getUint)
    else .error (.input ("Invalid " ++ key ++ " value."))

/-- `check_id` (input_parser.cpp lines 174-181). -/
def check_id (v : Json) (type : String) : Exc Unit :=
  if !v.isObject then
    .error (.input ("Invalid " ++ type ++ "."))
  else if !v.hasMember "id" || !(v.get "id").isUint64 then
    .error (.input ("Invalid or missing id for " ++ type ++ "."))
  else
    .ok ()

/-- The id of a task or vehicle object, `v["id"].GetUint64()`. -/
def Json.idOf (v : Json) : Nat := (v.get "id").getUint64

/-- `check_shipment` (input_parser.cpp lines 183-193). -/
def check_shipment (v : Json) : Exc Unit :=
  if !v.isObject then
    .error (.input "Invalid shipment.")
  else if !v.hasMember "pickup" || !(v.get "pickup").isObject then
    .error (.input "Missing pickup for shipment.")
  else if !v.hasMember "delivery" || !(v.get "delivery").isObject then
    .error (.input "Missing delivery for shipment.")
  else
    .ok ()

/-- `check_location` (input_parser.cpp lines 195-200). -/
def check_location (v : Json) (type : String) : Exc Unit :=
  if !v.hasMember "location" || !(v.get "location").isArray then
    .error (.input ("Invalid location for " ++ type ++ " " ++
      toString v.idOf ++ "."))
  else
    .ok ()

/-- `get_time_window` (input_parser.cpp lines 202-207); the TimeWindow
constructor performs the start ≤ end check (see `TimeWindow.make`). -/
def get_time_window (tw : Json) : Exc TimeWindow :=
  if !tw.isArray || tw.elems.length < 2 ||
      !(tw.elems.getD 0 .null).isUint || !(tw.elems.getD 1 .null).isUint then
    .error (.input "Invalid time-window.")
  else
    TimeWindow.make (tw.elems.getD 0 .null).getUint (tw.elems.getD 1 .null).getUint

/-- `get_vehicle_time_window` (input_parser.cpp lines 209-215). -/
def get_vehicle_time_window (v : Json) : Exc TimeWindow :=
  match v.find "time_window" with
  | none => .ok TimeWindow.default
  | some tw => get_time_window tw

/-- `get_time_windows` (input_parser.cpp lines 217-236). -/
def get_time_windows (o : Json) : Exc (List TimeWindow) :=
  match o.find "time_windows" with
  | none => .ok [TimeWindow.default]
  | some v =>
    if !v.isArray || v.elems.isEmpty then
      .error (.input ("Invalid time_windows array for object " ++
        toString o.idOf ++ "."))
    else do
      let tws ← mapExc get_time_window v.elems
      .ok (sortTWs tws)

/-- The conditional expression computing `max_load` in `get_break`
(input_parser.cpp lines 241-243). -/
def getBreakMaxLoad (b : Json) (amount_size : Nat) : Exc (Option Amount) :=
  if b.hasMember "max_load" then
    (get_amount b "max_load" amount_size).map some
  else .ok none

/-- `get_break` (input_parser.cpp lines 238-250); `max_load` is computed
before the Break constructor arguments, which are evaluated left to right. -/
def get_break (b : Json) (amount_size : Nat) : Exc Break := do
  check_id b "break"
  let max_load ← getBreakMaxLoad b amount_size
  let tws ← get_time_windows b
  let service ← get_duration b "service"
  let description ← get_string b "description"
  .ok ⟨b.idOf, tws, service, description, max_load⟩

/-- The comparator of `std::ranges::sort` in `get_vehicle_breaks`
(input_parser.cpp lines 267-270), keyed on the first time window. -/
def breakLt (a b : Break) : Bool :=
  let ta := a.tws.headD TimeWindow.default
  let tb := b.tws.headD TimeWindow.default
  ta.start < tb.start || (ta.start == tb.start && ta.stop < tb.stop)

/-- Ordered insertion used to model the sort on breaks. -/
def insertBreak (x : Break) : List Break → List Break
  | [] => [x]
  | y :: ys => if breakLt x y then x :: y :: ys else y :: insertBreak x ys

/-- Insertion sort modelling `std::ranges::sort` on breaks. -/
def sortBreaks : List Break → List Break
  | [] => []
  | x :: xs => insertBreak x (sortBreaks xs)

/-- `get_vehicle_breaks` (input_parser.cpp lines 252-273). -/
def get_vehicle_breaks (v : Json) (amount_size : Nat) : Exc (List Break) :=
  match v.find "breaks" with
  | none => .ok (sortBreaks [])
  | some bv =>
    if !bv.isArray then
      .error (.input ("Invalid breaks for vehicle " ++ toString v.idOf ++ "."))
    else do
      let breaks ← mapExc (fun b => get_break b amount_size) bv.elems
      .ok (sortBreaks breaks)

/-- One cost member of `get_vehicle_costs` (input_parser.cpp lines 286-311). -/
def getCostMember (costs : Json) (key : String) (v_id : Nat) (dflt : Nat) :
    Exc Nat :=
  match costs.find key with
  | none => .ok dflt
  | some cv =>
    if cv.isUint then .ok cv.getUint
    else .error (.input ("Invalid " ++ key ++ " cost for vehicle " ++
      toString v_id ++ "."))

/-- `get_vehicle_costs` (input_parser.cpp lines 275-315). -/
def get_vehicle_costs (v : Json) : Exc VehicleCosts :=
  match v.find "costs" with
  | none => .ok ⟨0, DEFAULT_COST_PER_HOUR, DEFAULT_COST_PER_KM⟩
  | some costs =>
    if !costs.isObject then
      .error (.input ("Invalid costs for vehicle " ++ toString v.idOf ++ "."))
    else do
      let fixed ← getCostMember costs "fixed" v.idOf 0
      let per_hour ← getCostMember costs "per_hour" v.idOf DEFAULT_COST_PER_HOUR
      let per_km ← getCostMember costs "per_km" v.idOf DEFAULT_COST_PER_KM
      .ok ⟨fixed, per_hour, per_km⟩

/-- One forced-service member of `get_vehicle_steps`
(input_parser.cpp lines 331-354). -/
def getForcedMember (step : Json) (key : String) : Exc (Option Nat) :=
  match step.find key with
  | none => .ok none
  | some v =>
    if v.isUint then .ok (some v.getUint)
    else .error (.input ("Invalid " ++ key ++ " value."))

/-- One step of `get_vehicle_steps` (input_parser.cpp lines 328-393). -/
def getVehicleStep (v_id : Nat) (json_step : Json) : Exc VehicleStep := do
  let service_at ← getForcedMember json_step "service_at"
  let service_after ← getForcedMember json_step "service_after"
  let service_before ← getForcedMember json_step "service_before"
  let forced : ForcedService := ⟨service_at, service_after, service_before⟩
  let type_str ← get_string json_step "type"
  if type_str = "start" then
    .ok ⟨StepType.start, none, none, forced⟩
  else if type_str = "end" then
    .ok ⟨StepType.stop, none, none, forced⟩
  else if !json_step.hasMember "id" || !(json_step.get "id").isUint64 then
    .error (.input ("Invalid id in steps for vehicle " ++ toString v_id ++ "."))
  else if type_str = "job" then
    .ok ⟨StepType.job, some JobType.single, some json_step.idOf, forced⟩
  else if type_str = "pickup" then
    .ok ⟨StepType.job, some JobType.pickup, some json_step.idOf, forced⟩
  else if type_str = "delivery" then
    .ok ⟨StepType.job, some JobType.delivery, some json_step.idOf, forced⟩
  else if type_str = "break" then
    .ok ⟨StepType.brk, none, some json_step.idOf, forced⟩
  else
    .error (.input ("Invalid type in steps for vehicle " ++ toString v_id ++ "."))

/-- `get_vehicle_steps` (input_parser.cpp lines 317-397). -/
def get_vehicle_steps (v : Json) : Exc (List VehicleStep) :=
  match v.find "steps" with
  | none => .ok []
  | some sv =>
    if !sv.isArray then
      .error (.input ("Invalid steps for vehicle " ++ toString v.idOf ++ "."))
    else
      mapExc (getVehicleStep v.idOf) sv.elems

/-- The optional start location of `get_vehicle`
(input_parser.cpp lines 405-427). -/
def getVehicleStart (json_vehicle : Json) (v_id : Nat) : Exc (Option Location) :=
  let has_start_coords := json_vehicle.hasMember "start"
  match json_vehicle.find "start_index" with
  | some iv =>
    if !iv.isUint then
      .error (.input ("Invalid start_index for vehicle " ++ toString v_id ++ "."))
    else if has_start_coords then do
      let c ← parse_coordinates json_vehicle "start"
      .ok (some (Location.ofIndexCoords iv.getUint c))
    else
      .ok (some (Location.ofIndex iv.getUint))
  | none =>
    if has_start_coords then do
      let c ← parse_coordinates json_vehicle "start"
      .ok (some (Location.ofCoords c))
    else
      .ok none

/-- The optional end location of `get_vehicle`
(input_parser.cpp lines 429-451); note the source message lacks a space
after "vehicle". -/
def getVehicleEnd (json_vehicle : Json) (v_id : Nat) : Exc (Option Location) :=
  let has_end_coords := json_vehicle.hasMember "end"
  match json_vehicle.find "end_index" with
  | some iv =>
    if !iv.isUint then
      .error (.input ("Invalid end_index for vehicle" ++ toString v_id ++ "."))
    else if has_end_coords then do
      let c ← parse_coordinates json_vehicle "end"
      .ok (some (Location.ofIndexCoords iv.getUint c))
    else
      .ok (some (Location.ofIndex iv.getUint))
  | none =>
    if has_end_coords then do
      let c ← parse_coordinates json_vehicle "end"
      .ok (some (Location.ofCoords c))
    else
      .ok none

/-- `get_vehicle` (input_parser.cpp lines 399-474); the Vehicle constructor
arguments are evaluated left to right. -/
def get_vehicle (json_vehicle : Json) (amount_size : Nat) (tw : TimeWindow) :
    Exc Vehicle := do
  check_id json_vehicle "vehicle"
  let v_id := json_vehicle.idOf
  let start ← getVehicleStart json_vehicle v_id
  let stop ← getVehicleEnd json_vehicle v_id
  let profile0 ← get_string json_vehicle "profile"
  let profile := if profile0 = "" then DEFAULT_PROFILE else profile0
  let capacity ← get_amount json_vehicle "capacity" amount_size
  let skills ← get_skills json_vehicle
  let breaks ← get_vehicle_breaks json_vehicle amount_size
  let description ← get_string json_vehicle "description"
  let costs ← get_vehicle_costs json_vehicle
  let speed_factor ← get_double json_vehicle "speed_factor"
  let service_type ← get_optional_string json_vehicle "service_type"
  let max_tasks ← get_value_for json_vehicle "max_tasks"
  let max_travel_time ← get_value_for json_vehicle "max_travel_time"
  let max_distance ← get_value_for json_vehicle "max_distance"
  let steps ← get_vehicle_steps json_vehicle
  .ok ⟨v_id, start, stop, profile, capacity, skills, tw, breaks, description,
       costs, speed_factor, service_type, max_tasks, max_travel_time,
       max_distance, steps⟩

/-- `get_task_location` (input_parser.cpp lines 476-496). -/
def get_task_location (v : Json) (type : String) : Exc Location :=
  match v.find "location_index" with
  | some iv =>
    if !iv.isUint then
      .error (.input ("Invalid location_index for " ++ type ++ " " ++
        toString v.idOf ++ "."))
    else if v.hasMember "location" then do
      let c ← parse_coordinates v "location"
      .ok (Location.ofIndexCoords iv.getUint c)
    else
      .ok (Location.ofIndex iv.getUint)
  | none => do
    check_location v type
    let c ← parse_coordinates v "location"
    .ok (Location.ofCoords c)

/-- The retro-compatibility condition of `get_job`
(input_parser.cpp lines 504-506): the deprecated `amount` key counts as the
delivery exactly when neither `delivery` nor `pickup` is present. -/
def jobAmountCompat (json_job : Json) : Bool :=
  json_job.hasMember "amount" && !json_job.hasMember "delivery" &&
    !json_job.hasMember "pickup"

/-- The conditional expression choosing the delivery amount in `get_job`
(input_parser.cpp lines 513-514). -/
def jobDeliveryAmount (json_job : Json) (amount_size : Nat) : Exc Amount :=
  if jobAmountCompat json_job then get_amount json_job "amount" amount_size
  else get_amount json_job "delivery" amount_size

/-- `get_job` (input_parser.cpp lines 498-520); the Job constructor
arguments are evaluated left to right. -/
def get_job (json_job : Json) (amount_size : Nat) : Exc Job := do
  check_id json_job "job"
  let location ← get_task_location json_job "job"
  let setup ← get_duration json_job "setup"
  let service ← get_duration json_job "service"
  let spvt ← get_duration_map json_job "service_per_vehicle_type"
  let delivery ← jobDeliveryAmount json_job amount_size
  let pickup ← get_amount json_job "pickup" amount_size
  let skills ← get_skills json_job
  let priority ← get_priority json_job
  let tws ← get_time_windows json_job
  let description ← get_string json_job "description"
  .ok ⟨json_job.idOf, location, setup, service, spvt, delivery, pickup,
       skills, priority, tws, description⟩

/-- One row of `get_matrix` (input_parser.cpp lines 530-541). -/
def getMatrixRow (matrix_size : Nat) (row : Json) : Exc (List Nat) :=
  if !row.isArray || row.elems.length ≠ matrix_size then
    .error (.input "Unexpected matrix line length.")
  else
    mapExc (fun cell =>
      if cell.isUint then (.ok cell.getUint : Exc Nat)
      else .error (.input "Invalid matrix entry.")) row.elems

/-- `get_matrix<T>` (input_parser.cpp lines 522-544). -/
def get_matrix (m : Json) : Exc VMatrix :=
  if !m.isArray then .error (.input "Invalid matrix.")
  else do
    let rows ← mapExc (getMatrixRow m.elems.length) m.elems
    .ok ⟨m.elems.length, rows⟩

/-- Modelled from the spec: `utils::check_tws` (declared in utils/helpers.h,
which is not under src/) validates a parsed time-window list.  The spec
describes task and vehicle time-window lists as nonempty and sorted, so the
check rejects an empty list and a list whose consecutive windows are
unsorted or overlapping. -/
def check_tws (tws : List TimeWindow) (id : Nat) (type : String) : Exc Unit :=
  match tws with
  | [] => .error (.input ("Empty time-windows for " ++ type ++ " " ++
      toString id ++ "."))
  | first :: rest => go first rest
where
  go : TimeWindow → List TimeWindow → Exc Unit
    | _, [] => .ok ()
    | prev, next :: rest =>
      if next.start ≤ prev.stop then
        .error (.input ("Unsorted or overlapping time-windows for " ++ type ++
          " " ++ toString id ++ "."))
      else go next rest

/-- The typed-Job construction shared by the shipment pickup and delivery
branches of `parse` (input_parser.cpp lines 629-639 and 645-655); the Job
constructor arguments are evaluated left to right. -/
def getShipmentJob (j : Json) (t : JobType) (type_str : String)
    (amount : Amount) (skills : List Nat) (priority : Nat) : Exc SJob := do
  let location ← get_task_location j type_str
  let setup ← get_duration j "setup"
  let service ← get_duration j "service"
  let spvt ← get_duration_map j "service_per_vehicle_type"
  let tws ← get_time_windows j
  let description ← get_string j "description"
  .ok ⟨j.idOf, t, location, setup, service, spvt, amount, skills, priority,
       tws, description⟩

/-- The shipment loop body of `parse` (input_parser.cpp lines 616-657). -/
def parseShipment (amount_size : Nat) (json_shipment : Json) :
    Exc (SJob × SJob) := do
  check_shipment json_shipment
  let amount ← get_amount json_shipment "amount" amount_size
  let skills ← get_skills json_shipment
  let priority ← get_priority json_shipment
  let json_pickup := json_shipment.get "pickup"
  check_id json_pickup "pickup"
  let pickup ← getShipmentJob json_pickup JobType.pickup "pickup"
    amount skills priority
  let json_delivery := json_shipment.get "delivery"
  check_id json_delivery "delivery"
  let delivery ← getShipmentJob json_delivery JobType.delivery "delivery"
    amount skills priority
  .ok (pickup, delivery)

/-- The vehicle loop body of `parse` (input_parser.cpp lines 584-604):
without a `time_windows` key the vehicle is added once, otherwise once per
parsed time window. -/
def parseVehicleEntry (amount_size : Nat) (json_vehicle : Json) :
    Exc (List Vehicle) :=
  if !json_vehicle.hasMember "time_windows" then do
    let tw ← get_vehicle_time_window json_vehicle
    let vehicle ← get_vehicle json_vehicle amount_size tw
    .ok [vehicle]
  else do
    let timeWindows ← get_time_windows json_vehicle
    check_id json_vehicle "vehicle"
    check_tws timeWindows json_vehicle.idOf "vehicle"
    mapExc (fun tw => get_vehicle json_vehicle amount_size tw) timeWindows

/-- One profile entry of the `matrices` loop
(input_parser.cpp lines 665-683), threading the three matrix maps. -/
def parseMatrixEntry (acc : List (String × VMatrix) × List (String × VMatrix) ×
    List (String × VMatrix)) (entry : String × Json) :
    Exc (List (String × VMatrix) × List (String × VMatrix) ×
      List (String × VMatrix)) := do
  let (dur, dist, cost) := acc
  let (name, value) := entry
  if value.isObject then do
    let dur ←
      match value.find "durations" with
      | some mv => do
        let m ← get_matrix mv
        pure (setAssoc dur name m)
      | none => pure dur
    let dist ←
      match value.find "distances" with
      | some mv => do
        let m ← get_matrix mv
        pure (setAssoc dist name m)
      | none => pure dist
    let cost ←
      match value.find "costs" with
      | some mv => do
        let m ← get_matrix mv
        pure (setAssoc cost name m)
      | none => pure cost
    .ok (dur, dist, cost)
  else
    .ok (dur, dist, cost)

/-- Left fold with exceptions, the shape of the `matrices` member loop. -/
def foldExc {α β : Type} (f : α → β → Exc α) : α → List β → Exc α
  | acc, [] => .ok acc
  | acc, x :: xs => do
    let acc ← f acc x
    foldExc f acc xs

/-- The matrices section of `parse` (input_parser.cpp lines 661-693):
either the `matrices` object, or the deprecated top-level `matrix` key
interpreted as the durations matrix of the default profile. -/
def parseMatrices (doc : Json) : Exc (List (String × VMatrix) ×
    List (String × VMatrix) × List (String × VMatrix)) :=
  match doc.find "matrices" with
  | some v =>
    if !v.isObject then .error (.input "Unexpected matrices value.")
    else foldExc parseMatrixEntry ([], [], []) v.members
  | none =>
    match doc.find "matrix" with
    | some m => do
      let mt ← get_matrix m
      .ok ([(DEFAULT_PROFILE, mt)], [], [])
    | none => .ok ([], [], [])

/-- `has_jobs` (input_parser.cpp lines 559-560): `jobs` is present, an
array, and nonempty. -/
def has_jobs (doc : Json) : Bool :=
  match doc.find "jobs" with
  | some (.arr xs) => !xs.isEmpty
  | _ => false

/-- `has_shipments` (input_parser.cpp lines 561-563). -/
def has_shipments (doc : Json) : Bool :=
  match doc.find "shipments" with
  | some (.arr xs) => !xs.isEmpty
  | _ => false

/-- The `vehicles` check of `parse` (input_parser.cpp lines 568-571):
missing, not an array, or empty. -/
def bad_vehicles (doc : Json) : Bool :=
  match doc.find "vehicles" with
  | some (.arr xs) => xs.isEmpty
  | _ => true

/-- The elements of the `vehicles` member ([] when absent or not array). -/
def vehiclesArr (doc : Json) : List Json := (doc.get "vehicles").elems

/-- The elements of the `jobs` member ([] when absent or not array). -/
def jobsArr (doc : Json) : List Json := (doc.get "jobs").elems

/-- The elements of the `shipments` member ([] when absent or not array). -/
def shipmentsArr (doc : Json) : List Json := (doc.get "shipments").elems

/-- `json_input["vehicles"][0]`. -/
def firstVehicle (doc : Json) : Json := (vehiclesArr doc).headD .null

/-- The amount dimensionality of the run (input_parser.cpp lines 574-578):
the size of the first vehicle capacity array when present, nonempty and an
array, and 0 otherwise (a present empty array also yields 0). -/
def amountSizeOf (first_vehicle : Json) : Nat :=
  match first_vehicle.find "capacity" with
  | some (.arr xs) => xs.length
  | _ => 0

/-- The jobs section of `parse` (input_parser.cpp lines 607-612). -/
def parseJobsSection (doc : Json) (amount_size : Nat) : Exc (List Job) :=
  if has_jobs doc then mapExc (fun j => get_job j amount_size) (jobsArr doc)
  else pure []

/-- The shipments section of `parse` (input_parser.cpp lines 614-659). -/
def parseShipmentsSection (doc : Json) (amount_size : Nat) :
    Exc (List (SJob × SJob)) :=
  if has_shipments doc then
    mapExc (parseShipment amount_size) (shipmentsArr doc)
  else pure []

/-- `parse` after the main jobs/shipments/vehicles checks
(input_parser.cpp lines 572-693), accumulating the Input state. -/
def afterChecks (geometry : Bool) (doc : Json) : Exc Input := do
  check_id (firstVehicle doc) "vehicle"
  let amount_size := amountSizeOf (firstVehicle doc)
  let vehicleLists ← mapExc (parseVehicleEntry amount_size) (vehiclesArr doc)
  let jobs ← parseJobsSection doc amount_size
  let shipments ← parseShipmentsSection doc amount_size
  let (dur, dist, cost) ← parseMatrices doc
  .ok ⟨amount_size, geometry, vehicleLists.flatten, jobs, shipments,
       dur, dist, cost⟩

/-- `parse` (input_parser.cpp lines 546-693), applied to an already
decoded JSON document (the rapidjson string-parsing step is outside the
model). -/
def parse (geometry : Bool) (doc : Json) : Exc Input :=
  if !has_jobs doc && !has_shipments doc then
    .error (.input "Invalid jobs or shipments.")
  else if bad_vehicles doc then
    .error (.input "Invalid vehicles.")
  else
    afterChecks geometry doc

/- ===================== claim theorems: scaling ===================== -/

/-- Claim C8: internal durations are user durations times 100 and internal
costs are user costs times 100 * 3600, in integer arithmetic, and both
scalings round-trip: `scale_to_user_duration` after
`scale_from_user_duration` and `scale_to_user_cost` after
`scale_from_user_cost` are the identity on every value of the respective
32-bit user type. -/
theorem scaling_round_trip :
    (∀ d : Nat, scale_from_user_duration d = 100 * (d : Int)) ∧
    (∀ c : Nat, scale_from_user_cost c = 100 * 3600 * (c : Int)) ∧
    (∀ d : Nat, d < 2 ^ 32 →
      scale_to_user_duration (scale_from_user_duration d) = d) ∧
    (∀ c : Nat, c < 2 ^ 32 →
      scale_to_user_cost (scale_from_user_cost c) = c) := by
  refine ⟨fun d => rfl, fun c => by norm_num [scale_from_user_cost,
    DURATION_FACTOR, COST_FACTOR, mul_assoc], fun d hd => ?_, fun c hc => ?_⟩
  · have : ((100 : Int) * d) / 100 = d := by
      rw [Int.mul_ediv_cancel_left]; norm_num
    simp only [scale_to_user_duration, scale_from_user_duration,
      DURATION_FACTOR, this, Int.toNat_natCast]
    omega
  · have : ((100 * 3600 : Int) * c) / (100 * 3600) = c := by
      rw [Int.mul_ediv_cancel_left]; norm_num
    simp only [scale_to_user_cost, scale_from_user_cost, DURATION_FACTOR,
      COST_FACTOR, this, Int.toNat_natCast]
    omega

/-- Witness for C8 at concrete inputs. -/
theorem scaling_round_trip_witness :
    (7 : Nat) < 2 ^ 32 ∧ (9 : Nat) < 2 ^ 32 ∧
    scale_to_user_duration (scale_from_user_duration 7) = 7 ∧
    scale_to_user_cost (scale_from_user_cost 9) = 9 :=
  ⟨by norm_num, by norm_num, scaling_round_trip.2.2.1 7 (by norm_num),
    scaling_round_trip.2.2.2 9 (by norm_num)⟩

/-- Claim C9: `INFINITE_USER_COST` is exactly 3 * (max UserCost / 4), with
no uint32 overflow in its own computation, and four such infinities summed
in the signed 64-bit Cost type (both as plain casts and after cost scaling)
stay strictly below the largest Cost value. -/
theorem infinite_user_cost_headroom :
    INFINITE_USER_COST = 3 * (USER_COST_MAX / 4) ∧
    INFINITE_USER_COST = 3221225469 ∧
    4 * (INFINITE_USER_COST : Int) < COST_MAX ∧
    4 * scale_from_user_cost INFINITE_USER_COST < COST_MAX := by
  refine ⟨by decide, by decide, by norm_num [INFINITE_USER_COST,
    USER_COST_MAX, COST_MAX], by norm_num [INFINITE_USER_COST, USER_COST_MAX,
    COST_MAX, scale_from_user_cost, DURATION_FACTOR, COST_FACTOR]⟩

/- ===================== erase lemmas ===================== -/

theorem lookup_filter_self {β : Type} (ms : List (String × β)) (k : String) :
    (ms.filter (fun kv => kv.1 ≠ k)).lookup k = none := by
  induction ms with
  | nil => rfl
  | cons a rest ih =>
    rw [List.filter_cons]
    by_cases ha : a.1 = k
    · simp only [ha, ne_eq, not_true_eq_false, decide_False, if_false]
      exact ih
    · have hb : (k == a.1) = false := by
        simp only [beq_eq_false_iff_ne, ne_eq]
        exact fun hh => ha hh.symm
      simp only [ne_eq, ha, not_false_eq_true, decide_True, if_true,
        List.lookup, hb]
      exact ih

theorem lookup_filter_ne {β : Type} (ms : List (String × β)) (k k2 : String)
    (h : k2 ≠ k) :
    (ms.filter (fun kv => kv.1 ≠ k)).lookup k2 = ms.lookup k2 := by
  induction ms with
  | nil => rfl
  | cons a rest ih =>
    rw [List.filter_cons]
    by_cases ha : a.1 = k
    · have hb : (k2 == k) = false := beq_eq_false_iff_ne.mpr h
      simp [ha, List.lookup, hb]
      simpa using ih
    · simp only [ne_eq, ha, not_false_eq_true, decide_True, if_true,
        List.lookup]
      cases hb : (k2 == a.1) with
      | true => rfl
      | false => exact ih

theorem find_erase (j : Json) (k k2 : String) (h : k2 ≠ k) :
    (j.erase k).find k2 = j.find k2 := by
  cases j <;> try rfl
  exact lookup_filter_ne _ k k2 h

theorem find_erase_self (j : Json) (k : String) :
    (j.erase k).find k = none := by
  cases j <;> try rfl
  exact lookup_filter_self _ k

theorem isObject_erase (j : Json) (k : String) :
    (j.erase k).isObject = j.isObject := by
  cases j <;> rfl

theorem hasMember_erase (j : Json) (k k2 : String) (h : k2 ≠ k) :
    (j.erase k).hasMember k2 = j.hasMember k2 := by
  simp only [Json.hasMember, find_erase j k k2 h]

theorem hasMember_erase_self (j : Json) (k : String) :
    (j.erase k).hasMember k = false := by
  simp only [Json.hasMember, find_erase_self j k, Option.isSome_none]

theorem get_erase (j : Json) (k k2 : String) (h : k2 ≠ k) :
    (j.erase k).get k2 = j.get k2 := by
  simp only [Json.get, find_erase j k k2 h]

theorem idOf_erase (j : Json) (k : String) (h : ("id" : String) ≠ k) :
    (j.erase k).idOf = j.idOf := by
  simp only [Json.idOf, get_erase j k "id" h]

theorem find_eq_none_of_not_hasMember {j : Json} {k : String}
    (h : j.hasMember k = false) : j.find k = none := by
  cases hf : j.find k with
  | none => rfl
  | some v => rw [Json.hasMember, hf] at h; cases h

theorem check_id_erase (j : Json) (k type : String) (h : ("id" : String) ≠ k) :
    check_id (j.erase k) type = check_id j type := by
  simp only [check_id, isObject_erase, hasMember_erase j k _ h,
    get_erase j k _ h]

theorem parse_coordinates_erase (j : Json) (k key : String) (h : key ≠ k) :
    parse_coordinates (j.erase k) key = parse_coordinates j key := by
  simp only [parse_coordinates, get_erase j k _ h]

theorem get_string_erase (j : Json) (k key : String) (h : key ≠ k) :
    get_string (j.erase k) key = get_string j key := by
  simp only [get_string, find_erase j k _ h]

theorem get_duration_erase (j : Json) (k key : String) (h : key ≠ k) :
    get_duration (j.erase k) key = get_duration j key := by
  simp only [get_duration, find_erase j k _ h]

theorem get_duration_map_erase (j : Json) (k key : String) (h : key ≠ k) :
    get_duration_map (j.erase k) key = get_duration_map j key := by
  simp only [get_duration_map, find_erase j k _ h]

theorem get_amount_erase (j : Json) (k key : String) (n : Nat) (h : key ≠ k) :
    get_amount (j.erase k) key n = get_amount j key n := by
  simp only [get_amount, find_erase j k _ h]

theorem get_skills_erase (j : Json) (k : String)
    (h : ("skills" : String) ≠ k) :
    get_skills (j.erase k) = get_skills j := by
  simp only [get_skills, find_erase j k _ h]

theorem get_priority_erase (j : Json) (k : String)
    (h : ("priority" : String) ≠ k) :
    get_priority (j.erase k) = get_priority j := by
  simp only [get_priority, find_erase j k _ h]

theorem get_time_windows_erase (j : Json) (k : String)
    (h1 : ("time_windows" : String) ≠ k) (h2 : ("id" : String) ≠ k) :
    get_time_windows (j.erase k) = get_time_windows j := by
  simp only [get_time_windows, find_erase j k _ h1, idOf_erase j k h2]

theorem get_task_location_erase (j : Json) (k type : String)
    (h1 : ("location_index" : String) ≠ k) (h2 : ("location" : String) ≠ k)
    (h3 : ("id" : String) ≠ k) :
    get_task_location (j.erase k) type = get_task_location j type := by
  simp only [get_task_location, check_location, parse_coordinates,
    find_erase j k _ h1, hasMember_erase j k _ h2, get_erase j k _ h2,
    idOf_erase j k h3]

theorem jobAmountCompat_erase_amount (j : Json) :
    jobAmountCompat (j.erase "amount") = false := by
  simp [jobAmountCompat, hasMember_erase_self]

theorem jobDeliveryAmount_erase_amount (j : Json) (n : Nat)
    (h : jobAmountCompat j = false) :
    jobDeliveryAmount (j.erase "amount") n = jobDeliveryAmount j n := by
  simp only [jobDeliveryAmount, jobAmountCompat_erase_amount, h,
    Bool.false_eq_true, if_false,
    get_amount_erase j "amount" "delivery" n (by decide)]

/-- With the retro-compatibility rule inactive, the deprecated `amount` key
plays no role at all in `get_job`: erasing it leaves the result unchanged. -/
theorem get_job_erase_amount (j : Json) (n : Nat)
    (h : jobAmountCompat j = false) :
    get_job (j.erase "amount") n = get_job j n := by
  simp only [get_job, check_id_erase j "amount" "job" (by decide),
    get_task_location_erase j "amount" "job" (by decide) (by decide) (by decide),
    get_duration_erase j "amount" "setup" (by decide),
    get_duration_erase j "amount" "service" (by decide),
    get_duration_map_erase j "amount" "service_per_vehicle_type" (by decide),
    jobAmountCompat_erase_amount, h,
    jobDeliveryAmount_erase_amount j n h,
    get_amount_erase j "amount" "pickup" n (by decide),
    get_skills_erase j "amount" (by decide),
    get_priority_erase j "amount" (by decide),
    get_time_windows_erase j "amount" (by decide) (by decide),
    get_string_erase j "amount" "description" (by decide),
    idOf_erase j "amount" (by decide),
    Bool.false_eq_true, if_false]

/-- Success of `get_job` yields success of each component getter and ties
the Job fields to them. -/
theorem get_job_ok_parts {j : Json} {n : Nat} {job : Job}
    (h : get_job j n = .ok job) :
    check_id j "job" = .ok () ∧
    (∃ loc, get_task_location j "job" = .ok loc ∧ job.location = loc) ∧
    (∃ a, jobDeliveryAmount j n = .ok a ∧ job.delivery = a) ∧
    (∃ p, get_amount j "pickup" n = .ok p ∧ job.pickup = p) ∧
    (∃ tws, get_time_windows j = .ok tws ∧ job.tws = tws) ∧
    job.id = j.idOf := by
  unfold get_job at h
  obtain ⟨u, h1, h⟩ := bind_ok h
  obtain ⟨loc, h2, h⟩ := bind_ok h
  obtain ⟨setup, h3, h⟩ := bind_ok h
  obtain ⟨service, h4, h⟩ := bind_ok h
  obtain ⟨spvt, h5, h⟩ := bind_ok h
  obtain ⟨delivery, h6, h⟩ := bind_ok h
  obtain ⟨pickup, h7, h⟩ := bind_ok h
  obtain ⟨skills, h8, h⟩ := bind_ok h
  obtain ⟨priority, h9, h⟩ := bind_ok h
  obtain ⟨tws, h10, h⟩ := bind_ok h
  obtain ⟨descr, h11, h⟩ := bind_ok h
  cases h
  exact ⟨by cases u; exact h1, ⟨loc, h2, rfl⟩, ⟨delivery, h6, rfl⟩,
    ⟨pickup, h7, rfl⟩, ⟨tws, h10, rfl⟩, rfl⟩

/- ===================== claim C1 ===================== -/

/-- Claim C1: for every job object parsed by `get_job`, the deprecated
`amount` key is interpreted as the delivery amount exactly when the job has
an `amount` key and neither a `delivery` nor a `pickup` key; in every other
case the delivery amount comes from the `delivery` key (the zero vector
when absent) and the `amount` key is ignored (erasing it does not change
the parse). -/
theorem job_amount_compat_rule (j : Json) (n : Nat) (job : Job)
    (h : get_job j n = .ok job) :
    jobAmountCompat j = (j.hasMember "amount" && !j.hasMember "delivery" &&
      !j.hasMember "pickup") ∧
    (jobAmountCompat j = true → get_amount j "amount" n = .ok job.delivery) ∧
    (jobAmountCompat j = false →
      get_amount j "delivery" n = .ok job.delivery ∧
      (j.hasMember "delivery" = false → job.delivery = List.replicate n 0) ∧
      get_job (j.erase "amount") n = get_job j n) := by
  obtain ⟨-, -, ⟨a, ha, hda⟩, -⟩ := get_job_ok_parts h
  refine ⟨rfl, ?_, ?_⟩
  · intro hc
    simp only [jobDeliveryAmount, hc, if_true] at ha
    rw [hda]; exact ha
  · intro hc
    simp only [jobDeliveryAmount, hc, Bool.false_eq_true, if_false] at ha
    refine ⟨hda ▸ ha, ?_, get_job_erase_amount j n hc⟩
    intro hnd
    simp only [get_amount, find_eq_none_of_not_hasMember hnd] at ha
    cases ha
    exact hda

def cJobCompat : Json := .obj [("id", .num 1), ("location_index", .num 0),
  ("amount", .arr [.num 3])]

def cJobCompatVal : Job := ⟨1, Location.ofIndex 0, 0, 0, [], [3], [0], [], 0,
  [TimeWindow.default], ""⟩

def cJobNoCompat : Json := .obj [("id", .num 2), ("location_index", .num 0),
  ("amount", .arr [.num 3]), ("delivery", .arr [.num 4])]

def cJobNoCompatVal : Job := ⟨2, Location.ofIndex 0, 0, 0, [], [4], [0],
  [], 0, [TimeWindow.default], ""⟩

/-- Witness for C1 at two concrete jobs, one per branch of the rule. -/
theorem job_amount_compat_rule_witness :
    get_job cJobCompat 1 = .ok cJobCompatVal ∧
    get_amount cJobCompat "amount" 1 = .ok cJobCompatVal.delivery ∧
    get_job cJobNoCompat 1 = .ok cJobNoCompatVal ∧
    get_amount cJobNoCompat "delivery" 1 = .ok cJobNoCompatVal.delivery ∧
    get_job (cJobNoCompat.erase "amount") 1 = get_job cJobNoCompat 1 :=
  ⟨rfl, (job_amount_compat_rule cJobCompat 1 cJobCompatVal rfl).2.1 rfl,
   rfl, ((job_amount_compat_rule cJobNoCompat 1 cJobNoCompatVal rfl).2.2 rfl).1,
   ((job_amount_compat_rule cJobNoCompat 1 cJobNoCompatVal rfl).2.2 rfl).2.2⟩

/- ===================== claim C10 ===================== -/

/-- Claim C10: a task object with neither `location` nor `location_index`
makes `get_task_location` (and hence `get_job`) raise an InputException
naming the task type and id; when `location_index` is present (a uint), the
location is built from the index, with coordinates attached exactly when
`location` is also present. -/
theorem task_location_required (v : Json) (type : String) (n : Nat) :
    (v.hasMember "location" = false → v.hasMember "location_index" = false →
      get_task_location v type = .error (.input ("Invalid location for " ++
        type ++ " " ++ toString v.idOf ++ "."))) ∧
    (∀ iv, v.find "location_index" = some iv → iv.isUint = true →
      get_task_location v type =
        if v.hasMember "location" then
          (parse_coordinates v "location").map
            (fun c => Location.ofIndexCoords iv.getUint c)
        else .ok (Location.ofIndex iv.getUint)) ∧
    (v.hasMember "location" = false → v.hasMember "location_index" = false →
      check_id v "job" = .ok () →
      get_job v n = .error (.input ("Invalid location for " ++ "job" ++ " " ++
        toString v.idOf ++ "."))) := by
  have part1 : ∀ t : String, v.hasMember "location" = false →
      v.hasMember "location_index" = false →
      get_task_location v t = .error (.input ("Invalid location for " ++
        t ++ " " ++ toString v.idOf ++ ".")) := by
    intro t h1 h2
    simp only [get_task_location, find_eq_none_of_not_hasMember h2,
      check_location, h1, Bool.not_false, Bool.true_or, if_true]
    rfl
  refine ⟨part1 type, ?_, ?_⟩
  · intro iv hfind hiu
    simp only [get_task_location, hfind, hiu, Bool.not_true, Bool.false_eq_true,
      if_false]
    by_cases hl : v.hasMember "location"
    · simp only [hl, if_true]
      cases hp : parse_coordinates v "location" with
      | error e => simp [hp, Bind.bind, Except.bind, Except.map]
      | ok c => simp [hp, Bind.bind, Except.bind, Except.map]
    · simp only [hl, Bool.false_eq_true, if_false]
  · intro h1 h2 hc
    simp only [get_job, hc, part1 "job" h1 h2]
    rfl

def cNoLocTask : Json := .obj [("id", .num 7)]

def cIdxLocTask : Json := .obj [("id", .num 8), ("location_index", .num 3)]

/-- Witness for C10 at concrete tasks: one with no location data at all,
one with a bare `location_index`. -/
theorem task_location_required_witness :
    cNoLocTask.hasMember "location" = false ∧
    cNoLocTask.hasMember "location_index" = false ∧
    get_task_location cNoLocTask "job" =
      .error (.input "Invalid location for job 7.") ∧
    get_job cNoLocTask 1 = .error (.input "Invalid location for job 7.") ∧
    cIdxLocTask.find "location_index" = some (.num 3) ∧
    get_task_location cIdxLocTask "delivery" = .ok (Location.ofIndex 3) :=
  ⟨rfl, rfl, (task_location_required cNoLocTask "job" 1).1 rfl rfl,
   (task_location_required cNoLocTask "job" 1).2.2 rfl rfl rfl, rfl,
   (task_location_required cIdxLocTask "delivery" 1).2.1 (.num 3) rfl rfl⟩

/- ===================== claim C6 ===================== -/

/-- Claim C6: `parse` raises "Invalid jobs or shipments." when neither a
nonempty `jobs` array nor a nonempty `shipments` array is present, raises
"Invalid vehicles." when `vehicles` is missing, not an array or empty, and
otherwise proceeds past these checks into the rest of ingestion. -/
theorem parse_main_checks (doc : Json) (g : Bool) :
    (has_jobs doc = false → has_shipments doc = false →
      parse g doc = .error (.input "Invalid jobs or shipments.")) ∧
    ((has_jobs doc || has_shipments doc) = true → bad_vehicles doc = true →
      parse g doc = .error (.input "Invalid vehicles.")) ∧
    ((has_jobs doc || has_shipments doc) = true → bad_vehicles doc = false →
      parse g doc = afterChecks g doc) := by
  refine ⟨fun h1 h2 => by simp [parse, h1, h2], fun h1 h2 => ?_,
    fun h1 h2 => ?_⟩
  · cases hj : has_jobs doc <;> cases hs : has_shipments doc <;>
      simp_all [parse]
  · cases hj : has_jobs doc <;> cases hs : has_shipments doc <;>
      simp_all [parse]

def cDocNoTasks : Json := .obj [("vehicles", .arr [.obj [("id", .num 0)]])]

def cDocNoVehicles : Json :=
  .obj [("jobs", .arr [.obj [("id", .num 1), ("location_index", .num 0)]])]

def cDocMinimal : Json := .obj [
  ("jobs", .arr [.obj [("id", .num 1), ("location_index", .num 0)]]),
  ("vehicles", .arr [.obj [("id", .num 0)]])]

/-- Witness for C6 at three concrete documents, one per branch. -/
theorem parse_main_checks_witness :
    parse false cDocNoTasks = .error (.input "Invalid jobs or shipments.") ∧
    parse false cDocNoVehicles = .error (.input "Invalid vehicles.") ∧
    parse false cDocMinimal = afterChecks false cDocMinimal :=
  ⟨(parse_main_checks cDocNoTasks false).1 rfl rfl,
   (parse_main_checks cDocNoVehicles false).2.1 rfl rfl,
   (parse_main_checks cDocMinimal false).2.2 rfl rfl⟩

/- ===================== claim C7 ===================== -/

/-- Success of `getShipmentJob` ties every SJob field to its source:
the shared shipment-level arguments and the per-sub-object getters. -/
theorem getShipmentJob_ok_parts {j : Json} {t : JobType} {ts : String}
    {amount : Amount} {skills : List Nat} {priority : Nat} {sj : SJob}
    (h : getShipmentJob j t ts amount skills priority = .ok sj) :
    sj.id = j.idOf ∧ sj.job_type = t ∧ sj.amount = amount ∧
    sj.skills = skills ∧ sj.priority = priority ∧
    get_task_location j ts = .ok sj.location ∧
    get_duration j "setup" = .ok sj.setup ∧
    get_duration j "service" = .ok sj.service ∧
    get_duration_map j "service_per_vehicle_type" =
      .ok sj.service_per_vehicle_type ∧
    get_time_windows j = .ok sj.tws ∧
    get_string j "description" = .ok sj.description := by
  unfold getShipmentJob at h
  obtain ⟨loc, h1, h⟩ := bind_ok h
  obtain ⟨setup, h2, h⟩ := bind_ok h
  obtain ⟨service, h3, h⟩ := bind_ok h
  obtain ⟨spvt, h4, h⟩ := bind_ok h
  obtain ⟨tws, h5, h⟩ := bind_ok h
  obtain ⟨descr, h6, h⟩ := bind_ok h
  cases h
  exact ⟨rfl, rfl, rfl, rfl, rfl, h1, h2, h3, h4, h5, h6⟩

/-- Success of `parseShipment` yields the shared shipment-level values and
the success of both sub-object constructions with those shared values. -/
theorem parseShipment_ok_parts {n : Nat} {s : Json} {p d : SJob}
    (h : parseShipment n s = .ok (p, d)) :
    ∃ amount skills priority,
      get_amount s "amount" n = .ok amount ∧
      get_skills s = .ok skills ∧
      get_priority s = .ok priority ∧
      getShipmentJob (s.get "pickup") JobType.pickup "pickup"
        amount skills priority = .ok p ∧
      getShipmentJob (s.get "delivery") JobType.delivery "delivery"
        amount skills priority = .ok d := by
  unfold parseShipment at h
  obtain ⟨u1, h1, h⟩ := bind_ok h
  obtain ⟨amount, h2, h⟩ := bind_ok h
  obtain ⟨skills, h3, h⟩ := bind_ok h
  obtain ⟨priority, h4, h⟩ := bind_ok h
  obtain ⟨u2, h5, h⟩ := bind_ok h
  obtain ⟨pj, h6, h⟩ := bind_ok h
  obtain ⟨u3, h7, h⟩ := bind_ok h
  obtain ⟨dj, h8, h⟩ := bind_ok h
  cases h
  exact ⟨amount, skills, priority, h2, h3, h4, h6, h8⟩

/-- Claim C7: the pickup and delivery jobs of a parsed shipment carry
identical amount, skills and priority, each read from the shipment object
itself, while id, location, setup, service, time windows and description
are read from the respective sub-object. -/
theorem shipment_shared_fields (n : Nat) (s : Json) (p d : SJob)
    (h : parseShipment n s = .ok (p, d)) :
    p.amount = d.amount ∧ p.skills = d.skills ∧ p.priority = d.priority ∧
    get_amount s "amount" n = .ok p.amount ∧
    get_skills s = .ok p.skills ∧
    get_priority s = .ok p.priority ∧
    p.id = (s.get "pickup").idOf ∧ d.id = (s.get "delivery").idOf ∧
    p.job_type = JobType.pickup ∧ d.job_type = JobType.delivery ∧
    get_task_location (s.get "pickup") "pickup" = .ok p.location ∧
    get_task_location (s.get "delivery") "delivery" = .ok d.location ∧
    get_duration (s.get "pickup") "setup" = .ok p.setup ∧
    get_duration (s.get "delivery") "setup" = .ok d.setup ∧
    get_duration (s.get "pickup") "service" = .ok p.service ∧
    get_duration (s.get "delivery") "service" = .ok d.service ∧
    get_time_windows (s.get "pickup") = .ok p.tws ∧
    get_time_windows (s.get "delivery") = .ok d.tws ∧
    get_string (s.get "pickup") "description" = .ok p.description ∧
    get_string (s.get "delivery") "description" = .ok d.description := by
  obtain ⟨amount, skills, priority, h2, h3, h4, hp, hd⟩ :=
    parseShipment_ok_parts h
  obtain ⟨pid, ptype, pam, psk, ppr, ploc, pset, pserv, pmap, ptws, pdesc⟩ :=
    getShipmentJob_ok_parts hp
  obtain ⟨did, dtype, dam, dsk, dpr, dloc, dset, dserv, dmap, dtws, ddesc⟩ :=
    getShipmentJob_ok_parts hd
  exact ⟨pam.trans dam.symm, psk.trans dsk.symm, ppr.trans dpr.symm,
    pam ▸ h2, psk ▸ h3, ppr ▸ h4, pid, did, ptype, dtype, ploc, dloc,
    pset, dset, pserv, dserv, ptws, dtws, pdesc, ddesc⟩

def cShipment : Json := .obj [
  ("amount", .arr [.num 5]), ("skills", .arr [.num 2]), ("priority", .num 3),
  ("pickup", .obj [("id", .num 11), ("location_index", .num 0)]),
  ("delivery", .obj [("id", .num 12), ("location_index", .num 1)])]

def cShipmentP : SJob := ⟨11, JobType.pickup, Location.ofIndex 0, 0, 0, [],
  [5], [2], 3, [TimeWindow.default], ""⟩

def cShipmentD : SJob := ⟨12, JobType.delivery, Location.ofIndex 1, 0, 0, [],
  [5], [2], 3, [TimeWindow.default], ""⟩

/-- Witness for C7 at a concrete shipment. -/
theorem shipment_shared_fields_witness :
    parseShipment 1 cShipment = .ok (cShipmentP, cShipmentD) ∧
    cShipmentP.amount = cShipmentD.amount ∧
    get_amount cShipment "amount" 1 = .ok cShipmentP.amount ∧
    get_priority cShipment = .ok cShipmentP.priority :=
  ⟨rfl, (shipment_shared_fields 1 cShipment cShipmentP cShipmentD rfl).1,
   (shipment_shared_fields 1 cShipment cShipmentP cShipmentD rfl).2.2.2.1,
   (shipment_shared_fields 1 cShipment cShipmentP cShipmentD rfl).2.2.2.2.2.1⟩

/- ===================== claim C2 ===================== -/

theorem exc_map_bind {α β γ : Type} (f : β → γ) (e : Exc α) (g : α → Exc β) :
    (e >>= g).map f = e >>= fun a => (g a).map f := by
  cases e <;> rfl

/-- The time-window argument of `get_vehicle` only lands in the `tw` field:
the result at any window is the result at the default window with the `tw`
field replaced. -/
theorem get_vehicle_tw_map (v : Json) (n : Nat) (tw : TimeWindow) :
    get_vehicle v n tw =
      (get_vehicle v n TimeWindow.default).map (fun w => { w with tw := tw }) := by
  unfold get_vehicle
  simp only [exc_map_bind]
  rfl

theorem get_vehicle_ok_core {v : Json} {n : Nat} {tw : TimeWindow} {w : Vehicle}
    (h : get_vehicle v n tw = .ok w) :
    ∃ core, get_vehicle v n TimeWindow.default = .ok core ∧
      w = { core with tw := tw } := by
  rw [get_vehicle_tw_map] at h
  cases hc : get_vehicle v n TimeWindow.default with
  | error e => rw [hc] at h; cases h
  | ok core =>
    rw [hc] at h
    simp only [Except.map, Except.ok.injEq] at h
    exact ⟨core, rfl, h.symm⟩

theorem forall2_mem_right {α β : Type} {R : α → β → Prop} {l1 : List α}
    {l2 : List β} (h : List.Forall₂ R l1 l2) : ∀ b ∈ l2, ∃ a, R a b := by
  induction h with
  | nil => intro b hb; cases hb
  | cons hr _ ih =>
    intro b hb
    rcases List.mem_cons.mp hb with rfl | hb
    · exact ⟨_, hr⟩
    · exact ih b hb

/-- With a `time_windows` member present, a successful `get_time_windows`
returns exactly one window per element of the JSON array. -/
theorem get_time_windows_length {o : Json} {tws : List TimeWindow}
    (hm : o.hasMember "time_windows" = true)
    (h : get_time_windows o = .ok tws) :
    tws.length = (o.get "time_windows").elems.length := by
  obtain ⟨tv, hf⟩ := Option.isSome_iff_exists.mp hm
  simp only [get_time_windows, hf] at h
  by_cases hb : (!tv.isArray || tv.elems.isEmpty) = true
  · rw [if_pos hb] at h; cases h
  · rw [if_neg hb] at h
    obtain ⟨raw, hraw, hok⟩ := bind_ok h
    have : sortTWs raw = tws := by
      simpa [pure, Except.pure] using hok
    rw [← this, sortTWs_length, mapExc_length hraw, Json.get, hf]
    rfl

/-- Claim C2: a vehicle object carrying a `time_windows` key with n windows
is expanded into exactly n vehicles, one per parsed window, all sharing the
id and every other field; a vehicle object without that key is added exactly
once, with its single `time_window` or the default window when absent. -/
theorem vehicle_time_windows_clones (n : Nat) (v : Json) (vs : List Vehicle)
    (h : parseVehicleEntry n v = .ok vs) :
    (v.hasMember "time_windows" = true →
      vs.length = (v.get "time_windows").elems.length ∧
      ∃ tws, get_time_windows v = .ok tws ∧ vs.length = tws.length ∧
        List.Forall₂ (fun tw w => get_vehicle v n tw = .ok w) tws vs ∧
        ∀ w1 ∈ vs, ∀ w2 ∈ vs, w1.id = w2.id ∧ { w1 with tw := w2.tw } = w2) ∧
    (v.hasMember "time_windows" = false →
      ∃ tw, get_vehicle_time_window v = .ok tw ∧
        (v.hasMember "time_window" = false → tw = TimeWindow.default) ∧
        ∃ w, get_vehicle v n tw = .ok w ∧ vs = [w]) := by
  constructor
  · intro hm
    rw [parseVehicleEntry, hm] at h
    simp only [Bool.not_true, Bool.false_eq_true, if_false] at h
    obtain ⟨tws, htws, h⟩ := bind_ok h
    obtain ⟨u1, hid, h⟩ := bind_ok h
    obtain ⟨u2, hcheck, hmap⟩ := bind_ok h
    have hf2 := mapExc_forall2 hmap
    have hsame : ∀ w1 ∈ vs, ∀ w2 ∈ vs, w1.id = w2.id ∧
        { w1 with tw := w2.tw } = w2 := by
      intro w1 hw1 w2 hw2
      obtain ⟨tw1, hv1⟩ := forall2_mem_right hf2 w1 hw1
      obtain ⟨tw2, hv2⟩ := forall2_mem_right hf2 w2 hw2
      obtain ⟨core1, hc1, rfl⟩ := get_vehicle_ok_core hv1
      obtain ⟨core2, hc2, rfl⟩ := get_vehicle_ok_core hv2
      rw [hc1] at hc2
      cases hc2
      exact ⟨rfl, rfl⟩
    have hlen : vs.length = tws.length := mapExc_length hmap
    exact ⟨hlen.trans (get_time_windows_length hm htws), tws, htws, hlen,
      hf2, hsame⟩
  · intro hm
    rw [parseVehicleEntry, hm] at h
    simp only [Bool.not_false, if_true] at h
    obtain ⟨tw, htw, h⟩ := bind_ok h
    obtain ⟨w, hw, hfin⟩ := bind_ok h
    have hvs : vs = [w] := by
      have := hfin
      simp only [pure, Except.pure, Except.ok.injEq] at this
      exact this.symm
    refine ⟨tw, htw, ?_, w, hw, hvs⟩
    intro hnone
    rw [get_vehicle_time_window, find_eq_none_of_not_hasMember hnone] at htw
    cases htw
    rfl

def cVehTws : Json := .obj [("id", .num 4),
  ("time_windows", .arr [.arr [.num 0, .num 5], .arr [.num 10, .num 20]])]

def cVehTwsW1 : Vehicle := ⟨4, none, none, "car", [], [], ⟨0, 5⟩, [], "",
  ⟨0, 3600, 0⟩, 1, none, none, none, none, []⟩

def cVehTwsW2 : Vehicle := ⟨4, none, none, "car", [], [], ⟨10, 20⟩, [], "",
  ⟨0, 3600, 0⟩, 1, none, none, none, none, []⟩

def cVehPlain : Json := .obj [("id", .num 5)]

def cVehPlainW : Vehicle := ⟨5, none, none, "car", [], [], TimeWindow.default,
  [], "", ⟨0, 3600, 0⟩, 1, none, none, none, none, []⟩

/-- Witness for C2 at a two-window vehicle and a windowless vehicle. -/
theorem vehicle_time_windows_clones_witness :
    parseVehicleEntry 0 cVehTws = .ok [cVehTwsW1, cVehTwsW2] ∧
    ([cVehTwsW1, cVehTwsW2] : List Vehicle).length =
      (cVehTws.get "time_windows").elems.length ∧
    parseVehicleEntry 0 cVehPlain = .ok [cVehPlainW] :=
  ⟨rfl,
   ((vehicle_time_windows_clones 0 cVehTws [cVehTwsW1, cVehTwsW2] rfl).1
     rfl).1,
   rfl⟩

/- ===================== claim C5 ===================== -/

/-- The `matrices` object equivalent to a deprecated top-level `matrix`
value: one default-profile entry holding it as `durations`. -/
def matricesWrap (m : Json) : Json :=
  .obj [(DEFAULT_PROFILE, .obj [("durations", m)])]

/-- Replacement of a `matrix` member by its `matrices` equivalent. -/
def replaceMatrixEntry (kv : String × Json) : String × Json :=
  if kv.1 = "matrix" then ("matrices", matricesWrap kv.2) else kv

/-- The document with every `matrix` member replaced by the equivalent
`matrices` member. -/
def replaceMatrixKey : Json → Json
  | .obj ms => .obj (ms.map replaceMatrixEntry)
  | j => j

/-- The claim side condition: a square matrix of uint entries. -/
def isSquareUintMatrix (m : Json) : Bool :=
  m.isArray && m.elems.all (fun row => row.isArray &&
    row.elems.length == m.elems.length && row.elems.all Json.isUint)

theorem lookup_cons_self {β : Type} (k : String) (v : β)
    (rest : List (String × β)) : ((k, v) :: rest).lookup k = some v := by
  simp [List.lookup]

theorem lookup_cons_ne {β : Type} {k a : String} (v : β)
    (rest : List (String × β)) (h : k ≠ a) :
    ((a, v) :: rest).lookup k = rest.lookup k := by
  simp [List.lookup, beq_eq_false_iff_ne.mpr h]

theorem replaceMatrixEntry_matrix {kv : String × Json} (h : kv.1 = "matrix") :
    replaceMatrixEntry kv = ("matrices", matricesWrap kv.2) := by
  simp [replaceMatrixEntry, h]

theorem replaceMatrixEntry_other {kv : String × Json} (h : kv.1 ≠ "matrix") :
    replaceMatrixEntry kv = kv := by
  simp [replaceMatrixEntry, h]

theorem lookup_map_replace (ms : List (String × Json)) (k : String)
    (h1 : k ≠ "matrix") (h2 : k ≠ "matrices") :
    (ms.map replaceMatrixEntry).lookup k = ms.lookup k := by
  induction ms with
  | nil => rfl
  | cons a rest ih =>
    obtain ⟨a1, a2⟩ := a
    by_cases ha : a1 = "matrix"
    · rw [List.map_cons, replaceMatrixEntry_matrix ha, ha,
        lookup_cons_ne _ _ h2, lookup_cons_ne _ _ h1, ih]
    · rw [List.map_cons, replaceMatrixEntry_other ha]
      by_cases hk : k = a1
      · subst hk
        rw [lookup_cons_self, lookup_cons_self]
      · rw [lookup_cons_ne _ _ hk, lookup_cons_ne _ _ hk, ih]

theorem lookup_map_replace_matrices (ms : List (String × Json)) (m : Json)
    (hno : ms.lookup "matrices" = none) (hm : ms.lookup "matrix" = some m) :
    (ms.map replaceMatrixEntry).lookup "matrices" = some (matricesWrap m) := by
  induction ms with
  | nil => cases hm
  | cons a rest ih =>
    obtain ⟨a1, a2⟩ := a
    by_cases ha : a1 = "matrix"
    · subst ha
      rw [lookup_cons_self] at hm
      cases hm
      rw [List.map_cons, replaceMatrixEntry_matrix rfl, lookup_cons_self]
    · have hmm : ("matrices" : String) ≠ a1 := by
        intro hh
        rw [← hh, lookup_cons_self] at hno
        cases hno
      rw [lookup_cons_ne _ _ hmm] at hno
      rw [lookup_cons_ne _ _ (fun hh => ha hh.symm)] at hm
      rw [List.map_cons, replaceMatrixEntry_other ha,
        lookup_cons_ne _ _ hmm]
      exact ih hno hm

theorem find_replace_ne (d : Json) (k : String) (h1 : k ≠ "matrix")
    (h2 : k ≠ "matrices") : (replaceMatrixKey d).find k = d.find k := by
  cases d <;> try rfl
  exact lookup_map_replace _ k h1 h2

theorem find_replace_matrices {d m : Json}
    (hno : d.find "matrices" = none) (hm : d.find "matrix" = some m) :
    (replaceMatrixKey d).find "matrices" = some (matricesWrap m) := by
  cases d with
  | obj ms => exact lookup_map_replace_matrices ms m hno hm
  | null => cases hm
  | boolean b => cases hm
  | num n => cases hm
  | str s => cases hm
  | arr xs => cases hm

theorem parseMatrices_replace {d m : Json} (hno : d.find "matrices" = none)
    (hm : d.find "matrix" = some m) :
    parseMatrices (replaceMatrixKey d) = parseMatrices d := by
  have hfd : (Json.obj [("durations", m)]).find "durations" = some m := rfl
  have hfdist : (Json.obj [("durations", m)]).find "distances" = none := rfl
  have hfc : (Json.obj [("durations", m)]).find "costs" = none := rfl
  simp only [parseMatrices, hno, hm, find_replace_matrices hno hm,
    matricesWrap, Json.isObject, Bool.not_true, Bool.false_eq_true, if_false,
    Json.members, foldExc, parseMatrixEntry, hfd, hfdist, hfc]
  cases hgm : get_matrix m with
  | error e => simp [hgm, Bind.bind, Except.bind]
  | ok mt => simp [hgm, Bind.bind, Except.bind, setAssoc, foldExc, pure,
      Except.pure]

theorem has_jobs_replace (d : Json) :
    has_jobs (replaceMatrixKey d) = has_jobs d := by
  unfold has_jobs
  rw [find_replace_ne d "jobs" (by decide) (by decide)]

theorem has_shipments_replace (d : Json) :
    has_shipments (replaceMatrixKey d) = has_shipments d := by
  unfold has_shipments
  rw [find_replace_ne d "shipments" (by decide) (by decide)]

theorem bad_vehicles_replace (d : Json) :
    bad_vehicles (replaceMatrixKey d) = bad_vehicles d := by
  unfold bad_vehicles
  rw [find_replace_ne d "vehicles" (by decide) (by decide)]

theorem vehiclesArr_replace (d : Json) :
    vehiclesArr (replaceMatrixKey d) = vehiclesArr d := by
  unfold vehiclesArr Json.get
  rw [find_replace_ne d "vehicles" (by decide) (by decide)]

theorem jobsArr_replace (d : Json) :
    jobsArr (replaceMatrixKey d) = jobsArr d := by
  unfold jobsArr Json.get
  rw [find_replace_ne d "jobs" (by decide) (by decide)]

theorem shipmentsArr_replace (d : Json) :
    shipmentsArr (replaceMatrixKey d) = shipmentsArr d := by
  unfold shipmentsArr Json.get
  rw [find_replace_ne d "shipments" (by decide) (by decide)]

theorem parseJobsSection_replace (d : Json) (n : Nat) :
    parseJobsSection (replaceMatrixKey d) n = parseJobsSection d n := by
  unfold parseJobsSection
  rw [has_jobs_replace, jobsArr_replace]

theorem parseShipmentsSection_replace (d : Json) (n : Nat) :
    parseShipmentsSection (replaceMatrixKey d) n = parseShipmentsSection d n := by
  unfold parseShipmentsSection
  rw [has_shipments_replace, shipmentsArr_replace]

theorem afterChecks_replace {d m : Json} (g : Bool)
    (hno : d.find "matrices" = none) (hm : d.find "matrix" = some m) :
    afterChecks g (replaceMatrixKey d) = afterChecks g d := by
  unfold afterChecks firstVehicle
  simp only [vehiclesArr_replace, parseJobsSection_replace,
    parseShipmentsSection_replace, parseMatrices_replace hno hm]

/-- Claim C5: a document with a deprecated top-level `matrix` key (and no
`matrices` key, as the source only reads `matrix` in that case) parses to
exactly the same Input state as the document with that key replaced by
`matrices.car.durations` holding the same square uint matrix. -/
theorem deprecated_matrix_key (g : Bool) (d m : Json)
    (hno : d.find "matrices" = none) (hm : d.find "matrix" = some m)
    (_hsq : isSquareUintMatrix m = true) :
    parse g d = parse g (replaceMatrixKey d) := by
  unfold parse
  rw [has_jobs_replace, has_shipments_replace, bad_vehicles_replace,
    afterChecks_replace g hno hm]

def cMatrixVal : Json := .arr [.arr [.num 0, .num 1], .arr [.num 2, .num 0]]

def cDocMatrix : Json := .obj [
  ("jobs", .arr [.obj [("id", .num 1), ("location_index", .num 0)]]),
  ("vehicles", .arr [.obj [("id", .num 0)]]),
  ("matrix", cMatrixVal)]

/-- Witness for C5 at a concrete document: the equivalence holds and the
deprecated key indeed lands in the default-profile durations matrix. -/
theorem deprecated_matrix_key_witness :
    cDocMatrix.find "matrices" = none ∧
    cDocMatrix.find "matrix" = some cMatrixVal ∧
    isSquareUintMatrix cMatrixVal = true ∧
    parse false cDocMatrix = parse false (replaceMatrixKey cDocMatrix) ∧
    parse false cDocMatrix = .ok
      ⟨0, false,
       [⟨0, none, none, "car", [], [], TimeWindow.default, [], "",
         ⟨0, 3600, 0⟩, 1, none, none, none, none, []⟩],
       [⟨1, Location.ofIndex 0, 0, 0, [], [], [], [], 0,
         [TimeWindow.default], ""⟩],
       [], [("car", ⟨2, [[0, 1], [2, 0]]⟩)], [], []⟩ :=
  ⟨rfl, rfl, rfl,
   deprecated_matrix_key false cDocMatrix cMatrixVal rfl rfl rfl, rfl⟩

/- ===================== claim C4 ===================== -/

/-- The elements of the `time_windows` member of an object ([] when the
member is absent or not an array). -/
def twsArrOf (o : Json) : List Json := (o.get "time_windows").elems

/-- A well-formed time-window pair (array of at least two uints) whose
start exceeds its end. -/
def badTWJson (j : Json) : Bool :=
  j.isArray && decide (2 ≤ j.elems.length) &&
  (j.elems.getD 0 .null).isUint && (j.elems.getD 1 .null).isUint &&
  decide ((j.elems.getD 1 .null).getUint < (j.elems.getD 0 .null).getUint)

/-- The object carries a malformed window among its `time_windows`. -/
def hasBadTWList (o : Json) : Bool := (twsArrOf o).any badTWJson

/-- A vehicle object carries a malformed time window in a position the
parser reads: among its `time_windows`, in its singular `time_window` when
`time_windows` is absent, or among the `time_windows` of one of its breaks. -/
def vehicleBadTW (v : Json) : Bool :=
  hasBadTWList v ||
  (!v.hasMember "time_windows" && badTWJson (v.get "time_window")) ||
  (v.get "breaks").elems.any hasBadTWList

/-- A shipment object carries a malformed time window on its pickup or
delivery sub-object. -/
def shipmentBadTW (s : Json) : Bool :=
  hasBadTWList (s.get "pickup") || hasBadTWList (s.get "delivery")

/-- The document contains a malformed (start > end) time window in a
position ingestion reads. -/
def docHasBadReadTW (doc : Json) : Bool :=
  (vehiclesArr doc).any vehicleBadTW ||
  (jobsArr doc).any hasBadTWList ||
  (shipmentsArr doc).any shipmentBadTW

theorem get_time_window_not_bad {t : Json} {w : TimeWindow}
    (h : get_time_window t = .ok w) : badTWJson t = false := by
  by_contra hb
  rw [Bool.not_eq_false] at hb
  unfold badTWJson at hb
  simp only [Bool.and_eq_true, decide_eq_true_eq] at hb
  obtain ⟨⟨⟨⟨ha, hlen⟩, hu0⟩, hu1⟩, hlt⟩ := hb
  have hl2 : decide (t.elems.length < 2) = false := by
    simp [Nat.not_lt.mpr hlen]
  rw [get_time_window, if_neg (by rw [ha, hu0, hu1, hl2]; simp)] at h
  rw [TimeWindow.make, if_pos hlt] at h
  cases h

theorem get_time_windows_not_bad {o : Json} {tws : List TimeWindow}
    (h : get_time_windows o = .ok tws) : hasBadTWList o = false := by
  unfold hasBadTWList twsArrOf
  cases hf : o.find "time_windows" with
  | none => simp [Json.get, hf, Json.elems]
  | some tv =>
    simp only [get_time_windows, hf] at h
    by_cases hc : (!tv.isArray || tv.elems.isEmpty) = true
    · rw [if_pos hc] at h; cases h
    · rw [if_neg hc] at h
      obtain ⟨raw, hraw, _⟩ := bind_ok h
      have hall := mapExc_ok_forall hraw
      simp only [Json.get, hf, Option.getD_some, List.any_eq_false]
      intro x hx
      obtain ⟨y, hy⟩ := hall x hx
      simp [get_time_window_not_bad hy]

theorem get_vehicle_time_window_not_bad {v : Json} {tw : TimeWindow}
    (h : get_vehicle_time_window v = .ok tw) :
    badTWJson (v.get "time_window") = false := by
  unfold get_vehicle_time_window at h
  cases hf : v.find "time_window" with
  | none => simp [Json.get, hf, badTWJson, Json.isArray]
  | some t =>
    rw [hf] at h
    rw [Json.get, hf]
    exact get_time_window_not_bad h

theorem get_break_not_bad {b : Json} {n : Nat} {br : Break}
    (h : get_break b n = .ok br) : hasBadTWList b = false := by
  unfold get_break at h
  obtain ⟨u1, h1, h⟩ := bind_ok h
  obtain ⟨ml, h2, h⟩ := bind_ok h
  obtain ⟨tws, h3, h⟩ := bind_ok h
  exact get_time_windows_not_bad h3

theorem get_vehicle_breaks_not_bad {v : Json} {n : Nat} {bs : List Break}
    (h : get_vehicle_breaks v n = .ok bs) :
    (v.get "breaks").elems.any hasBadTWList = false := by
  cases hf : v.find "breaks" with
  | none => simp [Json.get, hf, Json.elems]
  | some bv =>
    simp only [get_vehicle_breaks, hf] at h
    by_cases hc : (!bv.isArray) = true
    · rw [if_pos hc] at h; cases h
    · rw [if_neg hc] at h
      obtain ⟨raw, hraw, _⟩ := bind_ok h
      have hall := mapExc_ok_forall hraw
      simp only [Json.get, hf, Option.getD_some, List.any_eq_false]
      intro x hx
      obtain ⟨y, hy⟩ := hall x hx
      simp [get_break_not_bad hy]

/-- Success of `get_vehicle` yields success of the capacity and breaks
getters, tied to the Vehicle fields. -/
theorem get_vehicle_ok_parts {v : Json} {n : Nat} {tw : TimeWindow}
    {w : Vehicle} (h : get_vehicle v n tw = .ok w) :
    (∃ a, get_amount v "capacity" n = .ok a ∧ w.capacity = a) ∧
    (∃ bs, get_vehicle_breaks v n = .ok bs ∧ w.breaks = bs) := by
  unfold get_vehicle at h
  obtain ⟨u, h1, h⟩ := bind_ok h
  obtain ⟨start, h2, h⟩ := bind_ok h
  obtain ⟨stop, h3, h⟩ := bind_ok h
  obtain ⟨prof0, h4, h⟩ := bind_ok h
  obtain ⟨cap, h5, h⟩ := bind_ok h
  obtain ⟨skills, h6, h⟩ := bind_ok h
  obtain ⟨breaks, h7, h⟩ := bind_ok h
  obtain ⟨descr, h8, h⟩ := bind_ok h
  obtain ⟨costs, h9, h⟩ := bind_ok h
  obtain ⟨sf, h10, h⟩ := bind_ok h
  obtain ⟨st, h11, h⟩ := bind_ok h
  obtain ⟨mt, h12, h⟩ := bind_ok h
  obtain ⟨mtt, h13, h⟩ := bind_ok h
  obtain ⟨md, h14, h⟩ := bind_ok h
  obtain ⟨steps, h15, h⟩ := bind_ok h
  cases h
  exact ⟨⟨cap, h5, rfl⟩, ⟨breaks, h7, rfl⟩⟩

/-- A successful `get_time_windows` never returns an empty list. -/
theorem get_time_windows_ne_nil {o : Json} {tws : List TimeWindow}
    (h : get_time_windows o = .ok tws) : tws ≠ [] := by
  cases hf : o.find "time_windows" with
  | none =>
    simp only [get_time_windows, hf] at h
    cases h
    simp
  | some tv =>
    simp only [get_time_windows, hf] at h
    by_cases hc : (!tv.isArray || tv.elems.isEmpty) = true
    · rw [if_pos hc] at h; cases h
    · rw [if_neg hc] at h
      obtain ⟨raw, hraw, hok⟩ := bind_ok h
      have hts : sortTWs raw = tws := by
        simpa [pure, Except.pure] using hok
      have hemp : tv.elems.isEmpty = false := by
        have hfalse : (!tv.isArray || tv.elems.isEmpty) = false :=
          Bool.eq_false_iff.mpr hc
        rcases Bool.or_eq_false_iff.mp hfalse with ⟨-, he⟩
        exact he
      intro hnil
      rw [hnil] at hts
      have := sortTWs_length raw
      rw [hts] at this
      have hlen := mapExc_length hraw
      rw [← this] at hlen
      cases htv : tv.elems with
      | nil => rw [htv] at hemp; cases hemp
      | cons a as => rw [htv] at hlen; cases hlen


/-- A successful vehicle loop entry leaves no malformed time window in any
read position of the vehicle object. -/
theorem parseVehicleEntry_not_bad {n : Nat} {v : Json} {vs : List Vehicle}
    (h : parseVehicleEntry n v = .ok vs) : vehicleBadTW v = false := by
  unfold vehicleBadTW
  cases hm : v.hasMember "time_windows" with
  | true =>
    simp only [parseVehicleEntry, hm, Bool.not_true, Bool.false_eq_true,
      if_false] at h
    obtain ⟨tws, htws, h⟩ := bind_ok h
    obtain ⟨u1, hid, h⟩ := bind_ok h
    obtain ⟨u2, hck, hmap⟩ := bind_ok h
    obtain ⟨t0, trest, rfl⟩ : ∃ t0 trest, tws = t0 :: trest := by
      cases tws with
      | nil => exact absurd rfl (get_time_windows_ne_nil htws)
      | cons a as => exact ⟨a, as, rfl⟩
    obtain ⟨w, hw⟩ := mapExc_ok_forall hmap t0 (List.mem_cons_self t0 trest)
    obtain ⟨-, bs, hbs, -⟩ := get_vehicle_ok_parts hw
    simp [get_time_windows_not_bad htws, hm,
      get_vehicle_breaks_not_bad hbs]
  | false =>
    simp only [parseVehicleEntry, hm, Bool.not_false, if_true] at h
    obtain ⟨tw, htw, h⟩ := bind_ok h
    obtain ⟨w, hw, -⟩ := bind_ok h
    obtain ⟨-, bs, hbs, -⟩ := get_vehicle_ok_parts hw
    have hnb : hasBadTWList v = false := by
      unfold hasBadTWList twsArrOf
      rw [Json.get, find_eq_none_of_not_hasMember hm]
      rfl
    simp [hnb, get_vehicle_time_window_not_bad htw,
      get_vehicle_breaks_not_bad hbs]

/-- A successful `get_job` leaves no malformed window in the job object. -/
theorem get_job_not_bad {j : Json} {n : Nat} {job : Job}
    (h : get_job j n = .ok job) : hasBadTWList j = false := by
  obtain ⟨-, -, -, -, ⟨tws, htws, -⟩, -⟩ := get_job_ok_parts h
  exact get_time_windows_not_bad htws

/-- A successful shipment parse leaves no malformed window in the pickup or
delivery sub-object. -/
theorem parseShipment_not_bad {n : Nat} {s : Json} {pd : SJob × SJob}
    (h : parseShipment n s = .ok pd) : shipmentBadTW s = false := by
  obtain ⟨p, d⟩ := pd
  obtain ⟨a, sk, pr, -, -, -, hp, hd⟩ := parseShipment_ok_parts h
  obtain ⟨-, -, -, -, -, -, -, -, -, hptws, -⟩ := getShipmentJob_ok_parts hp
  obtain ⟨-, -, -, -, -, -, -, -, -, hdtws, -⟩ := getShipmentJob_ok_parts hd
  simp [shipmentBadTW, get_time_windows_not_bad hptws,
    get_time_windows_not_bad hdtws]

theorem jobsArr_nil_of_not_has_jobs {doc : Json} (h : has_jobs doc = false) :
    jobsArr doc = [] := by
  unfold has_jobs at h
  unfold jobsArr Json.get
  cases hf : doc.find "jobs" with
  | none => rfl
  | some v =>
    rw [hf] at h
    cases v with
    | arr xs =>
      have hxe : xs.isEmpty = true := by simpa using h
      simp [Json.elems, List.isEmpty_iff.mp hxe]
    | null => rfl
    | boolean b => rfl
    | num m => rfl
    | str s => rfl
    | obj ms => rfl

theorem shipmentsArr_nil_of_not_has_shipments {doc : Json}
    (h : has_shipments doc = false) : shipmentsArr doc = [] := by
  unfold has_shipments at h
  unfold shipmentsArr Json.get
  cases hf : doc.find "shipments" with
  | none => rfl
  | some v =>
    rw [hf] at h
    cases v with
    | arr xs =>
      have hxe : xs.isEmpty = true := by simpa using h
      simp [Json.elems, List.isEmpty_iff.mp hxe]
    | null => rfl
    | boolean b => rfl
    | num m => rfl
    | str s => rfl
    | obj ms => rfl

/-- A successful `parse` went through `afterChecks`. -/
theorem parse_ok_afterChecks {g : Bool} {doc : Json} {inp : Input}
    (h : parse g doc = .ok inp) : afterChecks g doc = .ok inp := by
  unfold parse at h
  split at h
  · cases h
  · split at h
    · cases h
    · exact h

/-- A successful `afterChecks` parsed every vehicle, job and shipment entry
successfully, at the amount size of the first vehicle. -/
theorem afterChecks_ok_parts {g : Bool} {doc : Json} {inp : Input}
    (h : afterChecks g doc = .ok inp) :
    (∀ v ∈ vehiclesArr doc, ∃ vs,
      parseVehicleEntry (amountSizeOf (firstVehicle doc)) v = .ok vs) ∧
    (∀ j ∈ jobsArr doc, ∃ job,
      get_job j (amountSizeOf (firstVehicle doc)) = .ok job) ∧
    (∀ s ∈ shipmentsArr doc, ∃ pd,
      parseShipment (amountSizeOf (firstVehicle doc)) s = .ok pd) := by
  unfold afterChecks at h
  obtain ⟨u, h1, h⟩ := bind_ok h
  obtain ⟨vls, h2, h⟩ := bind_ok h
  obtain ⟨jobs, h3, h⟩ := bind_ok h
  obtain ⟨ships, h4, h⟩ := bind_ok h
  refine ⟨mapExc_ok_forall h2, ?_, ?_⟩
  · unfold parseJobsSection at h3
    cases hj : has_jobs doc with
    | true =>
      rw [hj] at h3
      simp only [if_true] at h3
      exact mapExc_ok_forall h3
    | false =>
      intro j hjm
      rw [jobsArr_nil_of_not_has_jobs hj] at hjm
      cases hjm
  · unfold parseShipmentsSection at h4
    cases hs : has_shipments doc with
    | true =>
      rw [hs] at h4
      simp only [if_true] at h4
      exact mapExc_ok_forall h4
    | false =>
      intro s hsm
      rw [shipmentsArr_nil_of_not_has_shipments hs] at hsm
      cases hsm

/-- A successful `parse` leaves no malformed time window in any read
position of the document. -/
theorem parse_ok_no_bad_tw {g : Bool} {doc : Json} {inp : Input}
    (h : parse g doc = .ok inp) : docHasBadReadTW doc = false := by
  obtain ⟨hv, hj, hs⟩ := afterChecks_ok_parts (parse_ok_afterChecks h)
  unfold docHasBadReadTW
  simp only [Bool.or_eq_false_iff, List.any_eq_false]
  refine ⟨⟨?_, ?_⟩, ?_⟩
  · intro v hvm
    obtain ⟨vs, hvs⟩ := hv v hvm
    simp [parseVehicleEntry_not_bad hvs]
  · intro j hjm
    obtain ⟨job, hjob⟩ := hj j hjm
    simp [get_job_not_bad hjob]
  · intro s hsm
    obtain ⟨pd, hpd⟩ := hs s hsm
    simp [parseShipment_not_bad hpd]

/-- Claim C4 (amended): for every input containing a time window whose
start exceeds its end in a position ingestion actually reads — entries of a
job, shipment pickup, shipment delivery, break or vehicle `time_windows`
array, and a vehicle singular `time_window` only when that vehicle has no
`time_windows` key — parse raises an error during ingestion; ingestion
never succeeds on such an input. -/
theorem malformed_tw_rejected (g : Bool) (doc : Json)
    (h : docHasBadReadTW doc = true) : ∃ e, parse g doc = .error e := by
  cases hp : parse g doc with
  | error e => exact ⟨e, rfl⟩
  | ok inp => rw [parse_ok_no_bad_tw hp] at h; cases h

def cDocTWIgnored : Json := .obj [
  ("vehicles", .arr [.obj [("id", .num 0),
    ("time_windows", .arr [.arr [.num 0, .num 5]]),
    ("time_window", .arr [.num 5, .num 3])]]),
  ("jobs", .arr [.obj [("id", .num 1), ("location_index", .num 0)]])]

/-- Counterexample to C4 as stated: this document carries the malformed
time window [5, 3] (start > end) on a vehicle, in its singular
`time_window` member, yet ingestion succeeds, because the vehicle also has
a `time_windows` key and the parser then never reads `time_window`. -/
theorem malformed_tw_cex :
    ((vehiclesArr cDocTWIgnored).headD .null).get "time_window" =
      .arr [.num 5, .num 3] ∧
    badTWJson (((vehiclesArr cDocTWIgnored).headD .null).get "time_window") =
      true ∧
    (parse false cDocTWIgnored).isOk = true :=
  ⟨rfl, rfl, rfl⟩

def cDocBadJobTW : Json := .obj [
  ("vehicles", .arr [.obj [("id", .num 0)]]),
  ("jobs", .arr [.obj [("id", .num 1), ("location_index", .num 0),
    ("time_windows", .arr [.arr [.num 9, .num 3]])]])]

/-- Witness for the amended C4 at a document with a malformed job window. -/
theorem malformed_tw_rejected_witness :
    docHasBadReadTW cDocBadJobTW = true ∧
    (∃ e, parse false cDocBadJobTW = .error e) :=
  ⟨rfl, malformed_tw_rejected false cDocBadJobTW rfl⟩
/- ===================== claim C3 ===================== -/

/-- The named member has length `n` whenever it is an array. -/
def amtLenOK (o : Json) (key : String) (n : Nat) : Bool :=
  match o.find key with
  | some (.arr xs) => xs.length == n
  | _ => true

/-- Length consistency of the amount arrays `get_job` reads: `pickup`
always, and `amount` or `delivery` depending on the compatibility rule. -/
def jobAmtLensOK (j : Json) (n : Nat) : Bool :=
  amtLenOK j "pickup" n &&
  (if jobAmountCompat j then amtLenOK j "amount" n
   else amtLenOK j "delivery" n)

/-- Length consistency of the amount arrays read for a vehicle object:
`capacity`, and `max_load` of every break. -/
def vehicleAmtLensOK (v : Json) (n : Nat) : Bool :=
  amtLenOK v "capacity" n &&
  (v.get "breaks").elems.all (fun b => amtLenOK b "max_load" n)

/-- Every amount array the parser reads has the run dimensionality. -/
def docAmountLensOK (doc : Json) : Bool :=
  (vehiclesArr doc).all
    (fun v => vehicleAmtLensOK v (amountSizeOf (firstVehicle doc))) &&
  (jobsArr doc).all
    (fun j => jobAmtLensOK j (amountSizeOf (firstVehicle doc))) &&
  (shipmentsArr doc).all
    (fun s => amtLenOK s "amount" (amountSizeOf (firstVehicle doc)))

theorem get_amount_ok_len {o : Json} {key : String} {n : Nat} {a : Amount}
    (h : get_amount o key n = .ok a) : amtLenOK o key n = true := by
  unfold amtLenOK
  cases hf : o.find key with
  | none => rfl
  | some v =>
    cases v with
    | arr xs =>
      simp only [get_amount, hf, Json.isArray, Bool.not_true,
        Bool.false_eq_true, if_false, Json.elems] at h
      by_cases hl : xs.length = n
      · simp [hl]
      · rw [if_pos hl] at h; cases h
    | null => rfl
    | boolean b => rfl
    | num m => rfl
    | str s => rfl
    | obj ms => rfl

theorem get_amount_absent (o : Json) (key : String) (n : Nat)
    (h : o.find key = none) :
    get_amount o key n = .ok (List.replicate n 0) := by
  simp [get_amount, h]

theorem get_amount_len_error (o : Json) (key : String) (n : Nat)
    (xs : List Json) (hf : o.find key = some (.arr xs))
    (hne : xs.length ≠ n) :
    get_amount o key n = .error (.input ("Inconsistent " ++ key ++
      " length: " ++ toString xs.length ++ " and " ++ toString n ++ ".")) := by
  simp only [get_amount, hf, Json.isArray, Bool.not_true, Bool.false_eq_true,
    if_false, Json.elems]
  rw [if_pos hne]

theorem get_break_max_load_len {b : Json} {n : Nat} {br : Break}
    (h : get_break b n = .ok br) : amtLenOK b "max_load" n = true := by
  unfold get_break at h
  obtain ⟨u, h1, h⟩ := bind_ok h
  obtain ⟨ml, h2, h⟩ := bind_ok h
  unfold getBreakMaxLoad at h2
  cases hm : b.hasMember "max_load" with
  | true =>
    rw [hm] at h2
    simp only [if_true] at h2
    cases hga : get_amount b "max_load" n with
    | error e => rw [hga] at h2; cases h2
    | ok a => exact get_amount_ok_len hga
  | false =>
    unfold amtLenOK
    rw [find_eq_none_of_not_hasMember hm]

theorem get_vehicle_breaks_lens {v : Json} {n : Nat} {bs : List Break}
    (h : get_vehicle_breaks v n = .ok bs) :
    (v.get "breaks").elems.all (fun b => amtLenOK b "max_load" n) = true := by
  cases hf : v.find "breaks" with
  | none => simp [Json.get, hf, Json.elems]
  | some bv =>
    simp only [get_vehicle_breaks, hf] at h
    by_cases hc : (!bv.isArray) = true
    · rw [if_pos hc] at h; cases h
    · rw [if_neg hc] at h
      obtain ⟨raw, hraw, _⟩ := bind_ok h
      have hall := mapExc_ok_forall hraw
      simp only [Json.get, hf, Option.getD_some, List.all_eq_true]
      intro x hx
      obtain ⟨y, hy⟩ := hall x hx
      simp [get_break_max_load_len hy]

/-- A successful vehicle loop entry leaves every read amount array of the
vehicle object with the right length. -/
theorem parseVehicleEntry_lens {n : Nat} {v : Json} {vs : List Vehicle}
    (h : parseVehicleEntry n v = .ok vs) : vehicleAmtLensOK v n = true := by
  unfold vehicleAmtLensOK
  cases hm : v.hasMember "time_windows" with
  | true =>
    simp only [parseVehicleEntry, hm, Bool.not_true, Bool.false_eq_true,
      if_false] at h
    obtain ⟨tws, htws, h⟩ := bind_ok h
    obtain ⟨u1, hid, h⟩ := bind_ok h
    obtain ⟨u2, hck, hmap⟩ := bind_ok h
    obtain ⟨t0, trest, rfl⟩ : ∃ t0 trest, tws = t0 :: trest := by
      cases tws with
      | nil => exact absurd rfl (get_time_windows_ne_nil htws)
      | cons a as => exact ⟨a, as, rfl⟩
    obtain ⟨w, hw⟩ := mapExc_ok_forall hmap t0 (List.mem_cons_self t0 trest)
    obtain ⟨⟨cap, hcap, -⟩, bs, hbs, -⟩ := get_vehicle_ok_parts hw
    simp [get_amount_ok_len hcap, get_vehicle_breaks_lens hbs]
  | false =>
    simp only [parseVehicleEntry, hm, Bool.not_false, if_true] at h
    obtain ⟨tw, htw, h⟩ := bind_ok h
    obtain ⟨w, hw, -⟩ := bind_ok h
    obtain ⟨⟨cap, hcap, -⟩, bs, hbs, -⟩ := get_vehicle_ok_parts hw
    simp [get_amount_ok_len hcap, get_vehicle_breaks_lens hbs]

/-- A successful `get_job` leaves every read amount array of the job object
with the right length. -/
theorem get_job_lens {j : Json} {n : Nat} {job : Job}
    (h : get_job j n = .ok job) : jobAmtLensOK j n = true := by
  obtain ⟨-, -, ⟨a, ha, -⟩, ⟨p, hp, -⟩, -, -⟩ := get_job_ok_parts h
  unfold jobAmtLensOK
  unfold jobDeliveryAmount at ha
  cases hc : jobAmountCompat j with
  | true =>
    rw [hc] at ha
    simp only [if_true] at ha
    simp [get_amount_ok_len hp, get_amount_ok_len ha]
  | false =>
    rw [hc] at ha
    simp only [Bool.false_eq_true, if_false] at ha
    simp [get_amount_ok_len hp, get_amount_ok_len ha, hc]

/-- A successful shipment parse length-checked the shipment `amount`. -/
theorem parseShipment_lens {n : Nat} {s : Json} {pd : SJob × SJob}
    (h : parseShipment n s = .ok pd) : amtLenOK s "amount" n = true := by
  obtain ⟨p, d⟩ := pd
  obtain ⟨a, sk, pr, ham, -, -, -, -⟩ := parseShipment_ok_parts h
  exact get_amount_ok_len ham

/-- A successful `parse` leaves every read amount array of the document
with the run dimensionality. -/
theorem parse_ok_amount_lens {g : Bool} {doc : Json} {inp : Input}
    (h : parse g doc = .ok inp) : docAmountLensOK doc = true := by
  obtain ⟨hv, hj, hs⟩ := afterChecks_ok_parts (parse_ok_afterChecks h)
  unfold docAmountLensOK
  simp only [Bool.and_eq_true, List.all_eq_true]
  refine ⟨⟨?_, ?_⟩, ?_⟩
  · intro v hvm
    obtain ⟨vs, hvs⟩ := hv v hvm
    exact parseVehicleEntry_lens hvs
  · intro jx hjm
    obtain ⟨job, hjob⟩ := hj jx hjm
    exact get_job_lens hjob
  · intro sx hsm
    obtain ⟨pd, hpd⟩ := hs sx hsm
    exact parseShipment_lens hpd

/-- A successful `parse` records the first vehicle capacity size as the
amount dimensionality of the run. -/
theorem parse_ok_amount_size {g : Bool} {doc : Json} {inp : Input}
    (h : parse g doc = .ok inp) :
    inp.amount_size = amountSizeOf (firstVehicle doc) := by
  have h2 := parse_ok_afterChecks h
  unfold afterChecks at h2
  obtain ⟨u, h1, h2⟩ := bind_ok h2
  obtain ⟨vls, hv, h2⟩ := bind_ok h2
  obtain ⟨jobs, hjv, h2⟩ := bind_ok h2
  obtain ⟨ships, hsv, h2⟩ := bind_ok h2
  obtain ⟨mats, hmv, h2⟩ := bind_ok h2
  obtain ⟨d1, d2, d3⟩ := mats
  cases h2
  rfl

/-- Claim C3 (amended): the amount dimensionality of a run is the length of
the first vehicle capacity array (0 when there is no capacity array); every
`capacity`, `delivery`, `pickup`, `amount` or `max_load` array the parser
actually reads (a job `amount` is read only when the job has neither
`delivery` nor `pickup` key, and is otherwise ignored) must have that
length, the length check raising an InputException naming both lengths, so
ingestion only succeeds when all read arrays match; absent arrays default
to the zero vector of that dimensionality. -/
theorem amount_dimension_rule :
    (∀ v : Json, ∀ xs, v.find "capacity" = some (.arr xs) →
      amountSizeOf v = xs.length) ∧
    (∀ v : Json, (∀ xs, v.find "capacity" ≠ some (.arr xs)) →
      amountSizeOf v = 0) ∧
    (∀ (g : Bool) (doc : Json) (inp : Input), parse g doc = .ok inp →
      inp.amount_size = amountSizeOf (firstVehicle doc)) ∧
    (∀ (o : Json) (key : String) (n : Nat) (xs : List Json),
      o.find key = some (.arr xs) → xs.length ≠ n →
      get_amount o key n = .error (.input ("Inconsistent " ++ key ++
        " length: " ++ toString xs.length ++ " and " ++ toString n ++
        "."))) ∧
    (∀ (o : Json) (key : String) (n : Nat), o.find key = none →
      get_amount o key n = .ok (List.replicate n 0)) ∧
    (∀ (g : Bool) (doc : Json) (inp : Input), parse g doc = .ok inp →
      docAmountLensOK doc = true) := by
  refine ⟨?_, ?_, fun g doc inp h => parse_ok_amount_size h,
    get_amount_len_error, get_amount_absent,
    fun g doc inp h => parse_ok_amount_lens h⟩
  · intro v xs hf
    simp [amountSizeOf, hf]
  · intro v hne
    unfold amountSizeOf
    cases hf : v.find "capacity" with
    | none => rfl
    | some w =>
      cases w with
      | arr xs => exact absurd hf (hne xs)
      | null => rfl
      | boolean b => rfl
      | num m => rfl
      | str s => rfl
      | obj ms => rfl

def cDocAmountIgnored : Json := .obj [
  ("vehicles", .arr [.obj [("id", .num 0)]]),
  ("jobs", .arr [.obj [("id", .num 1), ("location_index", .num 0),
    ("delivery", .arr []), ("amount", .arr [.num 1])]])]

/-- Counterexample to C3 as stated: the run dimensionality of this document
is 0 and its only job carries an `amount` array of length 1, yet ingestion
succeeds without any exception, because a job `amount` key is ignored
(never length-checked) when a `delivery` key is present. -/
theorem amount_dimension_cex :
    amountSizeOf (firstVehicle cDocAmountIgnored) = 0 ∧
    ((jobsArr cDocAmountIgnored).headD .null).find "amount" =
      some (.arr [.num 1]) ∧
    (parse false cDocAmountIgnored).isOk = true :=
  ⟨rfl, rfl, rfl⟩

def cDocCap : Json := .obj [
  ("vehicles", .arr [.obj [("id", .num 0), ("capacity", .arr [.num 7])]]),
  ("jobs", .arr [.obj [("id", .num 1), ("location_index", .num 0),
    ("delivery", .arr [.num 2])]])]

def cInpCap : Input := ⟨1, false,
  [⟨0, none, none, "car", [7], [], TimeWindow.default, [], "", ⟨0, 3600, 0⟩,
    1, none, none, none, none, []⟩],
  [⟨1, Location.ofIndex 0, 0, 0, [], [2], [0], [], 0, [TimeWindow.default],
    ""⟩],
  [], [], [], []⟩

/-- Witness for the amended C3 at concrete inputs. -/
theorem amount_dimension_rule_witness :
    parse false cDocCap = .ok cInpCap ∧
    cInpCap.amount_size = amountSizeOf (firstVehicle cDocCap) ∧
    docAmountLensOK cDocCap = true ∧
    get_amount (Json.obj [("delivery", .arr [.num 1, .num 2])]) "delivery" 1 =
      .error (.input "Inconsistent delivery length: 2 and 1.") ∧
    get_amount (Json.obj []) "capacity" 2 = .ok [0, 0] :=
  ⟨rfl,
   amount_dimension_rule.2.2.1 false cDocCap cInpCap rfl,
   amount_dimension_rule.2.2.2.2.2 false cDocCap cInpCap rfl,
   amount_dimension_rule.2.2.2.1 _ "delivery" 1 [.num 1, .num 2] rfl
     (by decide),
   amount_dimension_rule.2.2.2.2.1 _ "capacity" 2 rfl⟩
